import Mathlib

/-!
Shallow embedding of `newproj.py`, a one-shot interactive project scaffolder.

The program is sequential orchestration of filesystem writes, interactive
yes/no prompts and external-process invocations.  We embed it as a
deterministic state-passing program over a `World`:

* the filesystem is a pair of association lists (files with contents, and a
  set of directories);
* standard input is a list of answer strings, consumed in order (end of
  input is modelled as the empty answer);
* every `subprocess.run(..., check=True)` invocation (the `run` helper of the
  source) consults a fixed oracle `exitOf : Cmd → Bool` giving the success of
  that command; a `false` result models a non-zero exit, which in the source
  raises `CalledProcessError`;
* the probes `shutil.which("gh")` and `gh auth status` are modelled as
  boolean streams consumed in call order (their results may change between
  calls, e.g. after an install or a login); the `gh --version` probe, made at
  most once per run, is the boolean `ghFound` (`false` models
  `FileNotFoundError`);
* every observable action (prompt, printed message, external command) is
  appended to an event trace.

Prompts, messages and commands are tagged by dedicated constructors; the
functions `promptText`, `msgText` and `cmdText` give the exact strings of the
source.  Raised-and-unhandled `CalledProcessError` is the `Except.error`
result of a function.
-/

namespace Newproj

/-- The interactive prompts of the source, one constructor per `input(...)`
call site. -/
inductive PromptId where
  | overwrite (filepath : String)
  | createDir (base : String)
  | includeWeb
  | installGh
  | authLogin
  | push
  | visibility
deriving DecidableEq

/-- Exact prompt strings of the source. -/
def promptText : PromptId → String
  | .overwrite filepath => "⚠️ File \x27" ++ filepath ++ "\x27 exists. Overwrite? (y/N): "
  | .createDir base => "Directory \x27" ++ base ++ "\x27 does not exist. Create it? (y/N): "
  | .includeWeb => "Include web frontend? (y/N): "
  | .installGh => "GitHub CLI not found. Install it now? (y/N): "
  | .authLogin => "Run `gh auth login` now? (y/N): "
  | .push => "Push to GitHub? (y/N): "
  | .visibility => "GitHub repo visibility? [public/private] (default: private): "

/-- The shell commands the source passes to its `run` helper
(`subprocess.run(cmd, shell=True, check=True, cwd=cwd)`), one constructor per
call site. -/
inductive Cmd where
  | venvCreate
  | pipUpgrade
  | pipInstall
  | gitInit
  | gitAdd
  | gitCommit
  | brewInstallGh
  | aptInstallGh
  | dnfInstallGh
  | ghAuthLogin
  | ghRepoCreate (name : String) (visibility : String)
deriving DecidableEq

/-- Exact command strings of the source. -/
def cmdText : Cmd → String
  | .venvCreate => "python3 -m venv .venv"
  | .pipUpgrade => "./.venv/bin/pip install --upgrade pip"
  | .pipInstall => "./.venv/bin/pip install -r requirements.txt -r requirements-dev.txt"
  | .gitInit => "git init"
  | .gitAdd => "git add ."
  | .gitCommit => "git commit -m \x27Initial project scaffold\x27"
  | .brewInstallGh => "brew install gh"
  | .aptInstallGh => "sudo apt update && sudo apt install -y gh"
  | .dnfInstallGh => "sudo dnf install -y gh"
  | .ghAuthLogin => "gh auth login"
  | .ghRepoCreate name visibility =>
      "gh repo create " ++ name ++ " --source=. --" ++ visibility ++ " --push"

/-- The messages the source prints, one constructor per `print(...)` call
site. -/
inductive Msg where
  | skipping (filename : String)
  | created (filepath : String)
  | gitCommitFailed
  | ghNotInstalled
  | ghNotAuthenticated
  | authFailed
  | stillNotAuthenticated
  | skippingPush
  | brewMissing
  | installingBrew
  | installingApt
  | installingDnf
  | unsupportedPkgMgr
  | unsupportedOS
  | aborting
  | success (name : String) (path : String)
deriving DecidableEq

/-- Exact printed strings of the source. -/
def msgText : Msg → String
  | .skipping filename => "Skipping \x27" ++ filename ++ "\x27"
  | .created filepath => "Created: " ++ filepath
  | .gitCommitFailed => "⚠️ Git commit failed — possibly because there\x27s nothing new to commit."
  | .ghNotInstalled => "❌ GitHub CLI (`gh`) is not installed or not in PATH."
  | .ghNotAuthenticated => "⚠️ GitHub CLI is not authenticated."
  | .authFailed => "❌ Authentication failed or was cancelled."
  | .stillNotAuthenticated => "❌ Still not authenticated after `gh auth login`. Aborting GitHub push."
  | .skippingPush => "❌ Skipping GitHub push due to lack of authentication."
  | .brewMissing => "❌ Homebrew is not installed. Cannot install GitHub CLI."
  | .installingBrew => "Installing GitHub CLI via Homebrew..."
  | .installingApt => "Installing GitHub CLI via apt..."
  | .installingDnf => "Installing GitHub CLI via dnf..."
  | .unsupportedPkgMgr => "❌ Unsupported Linux package manager."
  | .unsupportedOS => "❌ GitHub CLI installation not supported on this OS."
  | .aborting => "Aborting."
  | .success name path => "✅ Project \x27" ++ name ++ "\x27 created at " ++ path

instance exceptUnitDecEq : DecidableEq (Except Unit Unit) := fun a b =>
  match a, b with
  | .ok (), .ok () => isTrue rfl
  | .error (), .error () => isTrue rfl
  | .ok (), .error () => isFalse (fun h => Except.noConfusion h)
  | .error (), .ok () => isFalse (fun h => Except.noConfusion h)

/-- One observable action of a run. -/
inductive Event where
  | prompt (id : PromptId) (answer : String)
  | print (msg : Msg)
  | exec (cmd : Cmd) (cwd : Option String) (ok : Bool)
deriving DecidableEq

/-- Filesystem state: files with their textual contents (association list,
most recent write first) and the set of existing directories. -/
structure FS where
  files : List (String × String)
  dirs : List String
deriving DecidableEq

/-- `Path.exists()` for a file path. -/
def FS.fileExists (fs : FS) (p : String) : Bool :=
  fs.files.any (fun e => e.1 == p)

/-- The content currently stored at a file path. -/
def FS.readFile (fs : FS) (p : String) : Option String :=
  (fs.files.find? (fun e => e.1 == p)).map (fun e => e.2)

/-- `Path.write_text(content)`: create the file or replace its content. -/
def FS.write_text (fs : FS) (p c : String) : FS :=
  { fs with files := (p, c) :: fs.files.filter (fun e => !(e.1 == p)) }

/-- `Path.mkdir(parents=True, exist_ok=True)`: directory paths are opaque
strings here, so this records the directory itself; a pre-existing directory
is not an error. -/
def FS.mkdirP (fs : FS) (d : String) : FS :=
  if fs.dirs.contains d then fs else { fs with dirs := fs.dirs ++ [d] }

/-- The whole state of a run: filesystem, pending stdin answers, the oracles
for the external environment, and the trace of observable events so far. -/
structure World where
  fs : FS
  stdin : List String
  exitOf : Cmd → Bool
  whichGh : List Bool
  auth : List Bool
  ghFound : Bool
  system : String
  whichBrew : Bool
  whichApt : Bool
  whichDnf : Bool
  trace : List Event

/-- The whitespace characters Python's `str.strip()` removes. -/
def pyWhitespace (c : Char) : Bool :=
  c == ' ' || c == '\t' || c == '\n' || c == '\r' || c == '\x0b' || c == '\x0c'

/-- Python's `str.strip()`: remove leading and trailing whitespace. -/
def pyStrip (s : String) : String :=
  String.mk (((s.data.dropWhile pyWhitespace).reverse.dropWhile pyWhitespace).reverse)

/-- Python's `str.lower()`: lowercase every character. -/
def pyLower (s : String) : String := String.mk (s.data.map Char.toLower)

/-- The answer-normalisation every yes/no prompt of the source applies:
`input(...).strip().lower() == "y"`. -/
def answerIsYes (s : String) : Bool := pyLower (pyStrip s) == "y"

/-- `input(prompt)`: consume one stdin answer (end of input is modelled as the
empty answer) and record the prompt event. -/
def input (id : PromptId) (w : World) : String × World :=
  (w.stdin.headD "",
   { w with stdin := w.stdin.tail, trace := w.trace ++ [.prompt id (w.stdin.headD "")] })

/-- `print(msg)`: record the printed message. -/
def printLn (m : Msg) (w : World) : World :=
  { w with trace := w.trace ++ [.print m] }

/-- The `run` helper of the source: `subprocess.run(cmd, shell=True,
check=True, cwd=cwd)`.  A non-zero exit (oracle result `false`) raises
`CalledProcessError`, modelled as `Except.error`. -/
def run (c : Cmd) (cwd : Option String) (w : World) : Except Unit Unit × World :=
  let ok := w.exitOf c
  let w' := { w with trace := w.trace ++ [.exec c cwd ok] }
  if ok then (.ok (), w') else (.error (), w')

/-- `shutil.which("gh") is not None`, consumed from the `whichGh` stream. -/
def github_cli_installed (w : World) : Bool × World :=
  (w.whichGh.headD false, { w with whichGh := w.whichGh.tail })

/-- `gh auth status` exit-code probe, consumed from the `auth` stream. -/
def gh_authenticated (w : World) : Bool × World :=
  (w.auth.headD false, { w with auth := w.auth.tail })

/-- `Path(...).name`: the final path component (everything after the last
path separator; resolved paths carry no trailing separator). -/
def basename (p : String) : String :=
  String.mk ((p.data.reverse.takeWhile (fun c => !(c == '/'))).reverse)

/-- Joining of paths with `/`, as the source's `base_path / d`. -/
def pjoin (a b : String) : String := a ++ "/" ++ b

def BASE_DEPENDENCIES : List String := ["psycopg2-binary"]

def DEV_DEPENDENCIES : List String := ["ruff", "pytest"]

/-- `safe_write_file`: prompt before overwriting an existing file; on decline
skip, otherwise write the content. -/
def safe_write_file (filepath content : String) (w : World) : World :=
  if w.fs.fileExists filepath then
    let p := input (.overwrite filepath) w
    if answerIsYes p.1 then
      printLn (.created filepath) { p.2 with fs := p.2.fs.write_text filepath content }
    else
      printLn (.skipping (basename filepath)) p.2
  else
    printLn (.created filepath) { w with fs := w.fs.write_text filepath content }

/-- The directory names `create_project_structure` creates. -/
def scaffold_dirs (include_web : Bool) : List String :=
  ["cli", "src", "tests", "db", "scripts"] ++
    (if include_web then ["webapp", "webapp/templates"] else [])

def README_content (name : String) : String :=
  "# " ++ name ++ "\n\nProject generated with `newproj.py`."

def gitignore_content : String := ".venv/\n__pycache__/\n*.pyc\n.env\n"

def license_content : String := "MIT License\n"

def requirements_content : String := String.intercalate "\n" BASE_DEPENDENCIES ++ "\n"

def requirements_dev_content : String := String.intercalate "\n" DEV_DEPENDENCIES ++ "\n"

/-- The raw `pyproject` triple-quoted string of the source (before the
`.strip() + "\n"` it is written with). -/
def pyproject_raw : String :=
  "\n[tool.ruff]\nline-length = 100\nexclude = [\"migrations\", \"tests/data\"]\ntarget-version = \"py311\"\n"

def cli_main_content : String :=
  "import argparse\n\ndef main():\n    parser = argparse.ArgumentParser(description=\"CLI Entry Point\")\n    args = parser.parse_args()\n    print(\"CLI is working!\")\n\nif __name__ == \"__main__\":\n    main()\n"

def webapp_app_content : String :=
  "from flask import Flask, render_template\n\napp = Flask(__name__)\n\n@app.route(\"/\")\ndef index():\n    return render_template(\"index.html\", title=\"Welcome\")\n\nif __name__ == \"__main__\":\n    app.run(debug=True)\n"

def index_html_content : String :=
  "<!doctype html>\n<html>\n<head><title>\x7b\x7b title \x7d\x7d</title></head>\n<body><h1>\x7b\x7b title \x7d\x7d</h1></body>\n</html>\n"

/-- `create_project_structure`: make the directory tree, then write every
template file through `safe_write_file`. -/
def create_project_structure (base_path name : String) (include_web : Bool) (w : World) :
    World :=
  let w := { w with
    fs := (scaffold_dirs include_web).foldl (fun fs d => fs.mkdirP (pjoin base_path d)) w.fs }
  let w := safe_write_file (pjoin base_path "README.md") (README_content name) w
  let w := safe_write_file (pjoin base_path ".gitignore") gitignore_content w
  let w := safe_write_file (pjoin base_path "LICENSE") license_content w
  let w := safe_write_file (pjoin base_path "requirements.txt") requirements_content w
  let w := safe_write_file (pjoin base_path "requirements-dev.txt") requirements_dev_content w
  let w := safe_write_file (pjoin base_path "pyproject.toml") (pyStrip pyproject_raw ++ "\n") w
  let w := safe_write_file (pjoin (pjoin base_path "cli") "main.py") cli_main_content w
  if include_web then
    let w := safe_write_file (pjoin (pjoin base_path "webapp") "app.py") webapp_app_content w
    safe_write_file (pjoin (pjoin (pjoin base_path "webapp") "templates") "index.html")
      index_html_content w
  else w

/-- `create_venv_and_install`: three fatal external steps in sequence. -/
def create_venv_and_install (base_path : String) (w : World) : Except Unit Unit × World :=
  match run .venvCreate (some base_path) w with
  | (.error e, w) => (.error e, w)
  | (.ok _, w) =>
    match run .pipUpgrade (some base_path) w with
    | (.error e, w) => (.error e, w)
    | (.ok _, w) => run .pipInstall (some base_path) w

/-- `init_git_repo`: `git init` and `git add .` are fatal; a `git commit`
failure is caught and degrades to a warning. -/
def init_git_repo (base_path : String) (w : World) : Except Unit Unit × World :=
  match run .gitInit (some base_path) w with
  | (.error e, w) => (.error e, w)
  | (.ok _, w) =>
    match run .gitAdd (some base_path) w with
    | (.error e, w) => (.error e, w)
    | (.ok _, w) =>
      match run .gitCommit (some base_path) w with
      | (.error _, w) => (.ok (), printLn .gitCommitFailed w)
      | (.ok _, w) => (.ok (), w)

/-- `install_github_cli`: platform-specific installation dispatch; an
unsupported platform or package manager reports failure and returns `false`,
but a failing install command raises (is not caught). -/
def install_github_cli (w : World) : Except Unit Bool × World :=
  if w.system = "Darwin" then
    if w.whichBrew = false then
      (.ok false, printLn .brewMissing w)
    else
      let w := printLn .installingBrew w
      match run .brewInstallGh none w with
      | (.error e, w) => (.error e, w)
      | (.ok _, w) => let g := github_cli_installed w; (.ok g.1, g.2)
  else if w.system = "Linux" then
    if w.whichApt then
      let w := printLn .installingApt w
      match run .aptInstallGh none w with
      | (.error e, w) => (.error e, w)
      | (.ok _, w) => let g := github_cli_installed w; (.ok g.1, g.2)
    else if w.whichDnf then
      let w := printLn .installingDnf w
      match run .dnfInstallGh none w with
      | (.error e, w) => (.error e, w)
      | (.ok _, w) => let g := github_cli_installed w; (.ok g.1, g.2)
    else (.ok false, printLn .unsupportedPkgMgr w)
  else (.ok false, printLn .unsupportedOS w)

/-- The visibility normalisation of the source:
`visibility = input(...).strip().lower()`, then any value not in
`("public", "private")` is replaced by `"private"`. -/
def chooseVisibility (ans : String) : String :=
  let v := pyLower (pyStrip ans)
  if v ≠ "public" ∧ v ≠ "private" then "private" else v

/-- The tail of `push_to_github`: the visibility prompt followed by the fatal
`gh repo create ... --source=. --push` command. -/
def gh_repo_create (base_path name : String) (w : World) : Except Unit Unit × World :=
  let p := input .visibility w
  run (.ghRepoCreate name (chooseVisibility p.1)) (some base_path) p.2

/-- `push_to_github`: probe the CLI, verify or obtain authentication (all
failures there are caught and skip the push), then create-and-push. -/
def push_to_github (base_path name : String) (w : World) : Except Unit Unit × World :=
  if w.ghFound = false then
    (.ok (), printLn .ghNotInstalled w)
  else
    let a := gh_authenticated w
    if a.1 then gh_repo_create base_path name a.2
    else
      let w := printLn .ghNotAuthenticated a.2
      let p := input .authLogin w
      if answerIsYes p.1 then
        match run .ghAuthLogin none p.2 with
        | (.error _, w) => (.ok (), printLn .authFailed w)
        | (.ok _, w) =>
          let a2 := gh_authenticated w
          if a2.1 then gh_repo_create base_path name a2.2
          else (.ok (), printLn .stillNotAuthenticated a2.2)
      else (.ok (), printLn .skippingPush p.2)

/-- The tail of `main` once `gh_ready` is settled: the `Push to GitHub?`
prompt (only if the CLI is ready), the push itself, and the final success
line. -/
def main_gh_push_phase (base_path name : String) (gh_ready : Bool) (w : World) :
    Except Unit Unit × World :=
  match (if gh_ready then
           let p := input .push w
           if answerIsYes p.1 then push_to_github base_path name p.2
           else (Except.ok (), p.2)
         else (Except.ok (), w)) with
  | (.error e, w) => (.error e, w)
  | (.ok _, w) => (.ok (), printLn (.success name base_path) w)

/-- The hosting stage and final success line of `main` (everything after
`init_git_repo` returns): probe for the CLI, offer to install it if absent,
then the push phase. -/
def main_gh (base_path name : String) (w : World) : Except Unit Unit × World :=
  let g := github_cli_installed w
  match (if g.1 then (Except.ok true, g.2)
         else
           let p := input .installGh g.2
           if answerIsYes p.1 then install_github_cli p.2
           else (Except.ok false, p.2)) with
  | (.error e, w) => (.error e, w)
  | (.ok gh_ready, w) => main_gh_push_phase base_path name gh_ready w

/-- `main` after the target directory is known to exist: the web-frontend
prompt, the scaffold writer, the fatal environment and version-control
stages, then the hosting stage. -/
def main_rest (base_path name : String) (w : World) : Except Unit Unit × World :=
  let p := input .includeWeb w
  let include_web := answerIsYes p.1
  let w := create_project_structure base_path name include_web p.2
  match create_venv_and_install base_path w with
  | (.error e, w) => (.error e, w)
  | (.ok _, w) =>
    match init_git_repo base_path w with
    | (.error e, w) => (.error e, w)
    | (.ok _, w) => main_gh base_path name w

/-- `main`: the argument is the already-resolved absolute target path (the
source's `Path(args.path).expanduser().resolve()` is environment-dependent
path resolution, treated as opaque here).  A normal return is `Except.ok`
(process exit status 0); an uncaught `CalledProcessError` is `Except.error`. -/
def main (path : String) (w : World) : Except Unit Unit × World :=
  let base_path := path
  let name := basename base_path
  if w.fs.dirs.contains base_path then
    main_rest base_path name w
  else
    let p := input (.createDir base_path) w
    if answerIsYes p.1 then
      main_rest base_path name { p.2 with fs := p.2.fs.mkdirP base_path }
    else
      (.ok (), printLn .aborting p.2)

/-! ### Classification of events by pipeline stage -/

/-- Events the scaffold writer can emit: per-file overwrite prompts and the
`Skipping`/`Created` lines. -/
def ScafEv (e : Event) : Prop :=
  (∃ q a, e = Event.prompt (PromptId.overwrite q) a) ∨
    (∃ n, e = Event.print (Msg.skipping n)) ∨ (∃ q, e = Event.print (Msg.created q))

/-- Events of the three environment-provisioning commands. -/
def EnvEv (e : Event) : Prop :=
  ∃ cwd b, e = Event.exec Cmd.venvCreate cwd b ∨ e = Event.exec Cmd.pipUpgrade cwd b ∨
    e = Event.exec Cmd.pipInstall cwd b

/-- Events possible up to and including the environment-provisioning stage:
the directory-creation prompt, the web prompt, scaffold-writer events, and
the three provisioning commands. -/
def EnvStageEv (e : Event) : Prop :=
  (∃ b a, e = Event.prompt (PromptId.createDir b) a) ∨
    (∃ a, e = Event.prompt PromptId.includeWeb a) ∨ ScafEv e ∨ EnvEv e

/-- Events of the version-control stage: the three `git` commands and the
commit warning. -/
def GitEv (e : Event) : Prop :=
  (∃ cwd b, e = Event.exec Cmd.gitInit cwd b ∨ e = Event.exec Cmd.gitAdd cwd b ∨
    e = Event.exec Cmd.gitCommit cwd b) ∨ e = Event.print Msg.gitCommitFailed

/-- Events possible up to and including the version-control stage. -/
def GitStageEv (e : Event) : Prop := EnvStageEv e ∨ GitEv e

/-- Events `install_github_cli` can emit. -/
def InstallEv (e : Event) : Prop :=
  e = Event.print .brewMissing ∨ e = Event.print .installingBrew ∨
    e = Event.print .installingApt ∨ e = Event.print .installingDnf ∨
    e = Event.print .unsupportedPkgMgr ∨ e = Event.print .unsupportedOS ∨
    ∃ cwd bb, (e = Event.exec .brewInstallGh cwd bb ∨ e = Event.exec .aptInstallGh cwd bb ∨
      e = Event.exec .dnfInstallGh cwd bb)

/-- Events `push_to_github` can emit. -/
def PushEv (e : Event) : Prop :=
  e = Event.print .ghNotInstalled ∨ e = Event.print .ghNotAuthenticated ∨
    e = Event.print .authFailed ∨ e = Event.print .stillNotAuthenticated ∨
    e = Event.print .skippingPush ∨ (∃ a, e = Event.prompt .authLogin a) ∨
    (∃ a, e = Event.prompt .visibility a) ∨ (∃ cwd bb, e = Event.exec .ghAuthLogin cwd bb) ∨
    ∃ nm v cwd bb, e = Event.exec (.ghRepoCreate nm v) cwd bb

/-- A world extension along a pre-hosting pipeline fragment: the command
oracle, the platform facts and the not-yet-consumed `gh` probe streams are
unchanged, directories are only ever added, and the trace grows by events of
class `P`. -/
structure PreExt (P : Event → Prop) (w w' : World) : Prop where
  exitOf : w'.exitOf = w.exitOf
  ghFound : w'.ghFound = w.ghFound
  system : w'.system = w.system
  whichBrew : w'.whichBrew = w.whichBrew
  whichApt : w'.whichApt = w.whichApt
  whichDnf : w'.whichDnf = w.whichDnf
  whichGh : w'.whichGh = w.whichGh
  auth : w'.auth = w.auth
  dirs : ∀ d, w.fs.dirs.contains d = true → w'.fs.dirs.contains d = true
  trace : ∃ δ, w'.trace = w.trace ++ δ ∧ ∀ e ∈ δ, P e

/-! ### General lemmas -/

theorem PreExt.refl (P : Event → Prop) (w : World) : PreExt P w w :=
  ⟨rfl, rfl, rfl, rfl, rfl, rfl, rfl, rfl, fun _ h => h, ⟨[], by simp, by simp⟩⟩

theorem PreExt.trans {P : Event → Prop} {w₁ w₂ w₃ : World}
    (h₁ : PreExt P w₁ w₂) (h₂ : PreExt P w₂ w₃) : PreExt P w₁ w₃ := by
  obtain ⟨δ₁, ht₁, hp₁⟩ := h₁.trace
  obtain ⟨δ₂, ht₂, hp₂⟩ := h₂.trace
  refine ⟨h₂.exitOf.trans h₁.exitOf, h₂.ghFound.trans h₁.ghFound, h₂.system.trans h₁.system,
    h₂.whichBrew.trans h₁.whichBrew, h₂.whichApt.trans h₁.whichApt,
    h₂.whichDnf.trans h₁.whichDnf, h₂.whichGh.trans h₁.whichGh, h₂.auth.trans h₁.auth,
    fun d hd => h₂.dirs d (h₁.dirs d hd), ⟨δ₁ ++ δ₂, ?_, ?_⟩⟩
  · rw [ht₂, ht₁, List.append_assoc]
  · intro e he
    rcases List.mem_append.1 he with h | h
    exacts [hp₁ e h, hp₂ e h]

theorem PreExt.mono {P Q : Event → Prop} {w w' : World}
    (hPQ : ∀ e, P e → Q e) (h : PreExt P w w') : PreExt Q w w' := by
  obtain ⟨δ, ht, hp⟩ := h.trace
  exact ⟨h.exitOf, h.ghFound, h.system, h.whichBrew, h.whichApt, h.whichDnf, h.whichGh,
    h.auth, h.dirs, ⟨δ, ht, fun e he => hPQ e (hp e he)⟩⟩

/-! ### Strings, paths, association lists -/

theorem str_append_left_cancel {a b c : String} (h : a ++ b = a ++ c) : b = c := by
  have hd : a.data ++ b.data = a.data ++ c.data := by
    have := congrArg String.data h
    simpa using this
  exact String.ext (List.append_cancel_left hd)

@[simp] theorem pjoin_eq_pjoin_iff {a x y : String} : pjoin a x = pjoin a y ↔ x = y := by
  constructor
  · intro h
    exact @str_append_left_cancel (a ++ "/") x y h
  · intro h
    rw [h]

theorem pjoin_pjoin (a x y : String) : pjoin (pjoin a x) y = pjoin a (x ++ "/" ++ y) := by
  simp [pjoin, String.append_assoc]

theorem any_filter_ne {l : List (String × String)} {p q : String} (h : p ≠ q) :
    ((l.filter fun e => !(e.1 == q)).any fun e => e.1 == p) = (l.any fun e => e.1 == p) := by
  induction l with
  | nil => simp
  | cons hd tl ih =>
    by_cases hq : hd.1 = q
    · have h1 : (!(hd.1 == q)) = false := by simp [hq]
      have h2 : (hd.1 == p) = false := by
        rw [hq]
        exact beq_false_of_ne (Ne.symm h)
      rw [List.filter_cons, h1]
      simp only [Bool.false_eq_true, if_false, List.any_cons, h2, Bool.false_or, ih]
    · have h1 : (!(hd.1 == q)) = true := by simp [hq]
      rw [List.filter_cons, h1]
      simp only [if_true, List.any_cons, ih]

theorem find?_filter_ne {l : List (String × String)} {p q : String} (h : p ≠ q) :
    ((l.filter fun e => !(e.1 == q)).find? fun e => e.1 == p) = (l.find? fun e => e.1 == p) := by
  induction l with
  | nil => simp
  | cons hd tl ih =>
    by_cases hq : hd.1 = q
    · have h1 : (!(hd.1 == q)) = false := by simp [hq]
      have h2 : (hd.1 == p) = false := by
        rw [hq]
        exact beq_false_of_ne (Ne.symm h)
      rw [List.filter_cons, h1]
      simp only [Bool.false_eq_true, if_false, ih]
      rw [List.find?_cons_of_neg]
      simp [h2]
    · have h1 : (!(hd.1 == q)) = true := by simp [hq]
      rw [List.filter_cons, h1]
      simp only [if_true]
      by_cases hp : hd.1 = p
      · rw [List.find?_cons_of_pos, List.find?_cons_of_pos] <;> simp [hp]
      · rw [List.find?_cons_of_neg, List.find?_cons_of_neg, ih] <;> simp [hp]

/-! ### Filesystem lemmas -/

@[simp] theorem FS.write_text_dirs (fs : FS) (p c : String) :
    (fs.write_text p c).dirs = fs.dirs := rfl

@[simp] theorem FS.fileExists_write_self (fs : FS) (p c : String) :
    (fs.write_text p c).fileExists p = true := by
  simp [FS.write_text, FS.fileExists]

theorem FS.fileExists_write_ne (fs : FS) {p q : String} (h : p ≠ q) (c : String) :
    (fs.write_text q c).fileExists p = fs.fileExists p := by
  have hq : (q == p) = false := by
    simp
    exact fun e => h e.symm
  simp [FS.write_text, FS.fileExists, hq, any_filter_ne h]

@[simp] theorem FS.readFile_write_self (fs : FS) (p c : String) :
    (fs.write_text p c).readFile p = some c := by
  simp [FS.write_text, FS.readFile, List.find?]

theorem FS.readFile_write_ne (fs : FS) {p q : String} (h : p ≠ q) (c : String) :
    (fs.write_text q c).readFile p = fs.readFile p := by
  have hq : (q == p) = false := by
    simp
    exact fun e => h e.symm
  simp [FS.write_text, FS.readFile, List.find?, hq, find?_filter_ne h]

theorem contains_iff {l : List String} {a : String} : l.contains a = true ↔ a ∈ l := by
  simp [List.contains, List.elem_iff]

theorem FS.mkdirP_mem_iff (fs : FS) (d x : String) :
    (x ∈ (fs.mkdirP d).dirs) ↔ (x = d ∨ x ∈ fs.dirs) := by
  unfold FS.mkdirP
  split
  case isTrue h =>
    have hd : d ∈ fs.dirs := contains_iff.mp h
    constructor
    · intro hx
      exact Or.inr hx
    · rintro (rfl | hx)
      exacts [hd, hx]
  case isFalse h =>
    simp [or_comm]

theorem FS.mkdirP_of_contains {fs : FS} {d : String} (h : fs.dirs.contains d = true) :
    fs.mkdirP d = fs := by
  rw [FS.mkdirP, if_pos h]

theorem foldl_mkdirP_mem_iff (g : String → String) (l : List String) (fs : FS)
    (x : String) :
    (x ∈ (l.foldl (fun fs d => fs.mkdirP (g d)) fs).dirs) ↔
      ((∃ y ∈ l, g y = x) ∨ x ∈ fs.dirs) := by
  induction l generalizing fs with
  | nil => simp
  | cons hd tl ih =>
    simp only [List.foldl_cons, ih, FS.mkdirP_mem_iff, List.mem_cons]
    constructor
    · rintro (⟨y, hy, rfl⟩ | (rfl | hx))
      · exact Or.inl ⟨y, Or.inr hy, rfl⟩
      · exact Or.inl ⟨hd, Or.inl rfl, rfl⟩
      · exact Or.inr hx
    · rintro (⟨y, (rfl | hy), rfl⟩ | hx)
      · exact Or.inr (Or.inl rfl)
      · exact Or.inl ⟨y, hy, rfl⟩
      · exact Or.inr (Or.inr hx)

/-! ### Primitive-operation lemmas -/

theorem run_ok {w : World} {c : Cmd} {cwd : Option String} (h : w.exitOf c = true) :
    run c cwd w = (.ok (), { w with trace := w.trace ++ [.exec c cwd true] }) := by
  simp [run, h]

theorem run_err {w : World} {c : Cmd} {cwd : Option String} (h : w.exitOf c = false) :
    run c cwd w = (.error (), { w with trace := w.trace ++ [.exec c cwd false] }) := by
  simp [run, h]

theorem preExt_input (id : PromptId) (w : World) :
    PreExt (fun e => ∃ a, e = Event.prompt id a) w (input id w).2 :=
  ⟨rfl, rfl, rfl, rfl, rfl, rfl, rfl, rfl, fun _ h => h,
    ⟨[.prompt id (w.stdin.headD "")], rfl, by
      intro e he
      simp at he
      subst he
      exact ⟨_, rfl⟩⟩⟩

theorem preExt_printLn (m : Msg) (w : World) :
    PreExt (fun e => e = Event.print m) w (printLn m w) :=
  ⟨rfl, rfl, rfl, rfl, rfl, rfl, rfl, rfl, fun _ h => h,
    ⟨[.print m], rfl, by
      intro e he
      simpa using he⟩⟩

theorem preExt_run (c : Cmd) (cwd : Option String) (w : World) :
    PreExt (fun e => ∃ b, e = Event.exec c cwd b) w (run c cwd w).2 := by
  by_cases hc : w.exitOf c = true
  · rw [run_ok hc]
    exact ⟨rfl, rfl, rfl, rfl, rfl, rfl, rfl, rfl, fun _ h => h,
      ⟨[.exec c cwd true], rfl, by
        intro e he
        simp at he
        subst he
        exact ⟨_, rfl⟩⟩⟩
  · rw [run_err (by simpa using hc)]
    exact ⟨rfl, rfl, rfl, rfl, rfl, rfl, rfl, rfl, fun _ h => h,
      ⟨[.exec c cwd false], rfl, by
        intro e he
        simp at he
        subst he
        exact ⟨_, rfl⟩⟩⟩

/-! ### `safe_write_file` lemmas -/

theorem swf_absent {w : World} {p : String} (h : w.fs.fileExists p = false) (c : String) :
    safe_write_file p c w =
      { w with fs := w.fs.write_text p c, trace := w.trace ++ [.print (.created p)] } := by
  simp [safe_write_file, h, printLn]

theorem swf_present_yes {w : World} {p : String} (h : w.fs.fileExists p = true)
    (hy : answerIsYes (w.stdin.headD "") = true) (c : String) :
    safe_write_file p c w =
      { w with
          fs := w.fs.write_text p c,
          stdin := w.stdin.tail,
          trace := w.trace ++
            [.prompt (.overwrite p) (w.stdin.headD ""), .print (.created p)] } := by
  have hy' : answerIsYes (w.stdin.head?.getD "") = true := by simpa using hy
  simp [safe_write_file, h, input, printLn, hy', List.append_assoc]

theorem swf_present_no {w : World} {p : String} (h : w.fs.fileExists p = true)
    (hn : answerIsYes (w.stdin.headD "") = false) (c : String) :
    safe_write_file p c w =
      { w with
          stdin := w.stdin.tail,
          trace := w.trace ++
            [.prompt (.overwrite p) (w.stdin.headD ""),
              .print (.skipping (basename p))] } := by
  have hn' : answerIsYes (w.stdin.head?.getD "") = false := by simpa using hn
  simp [safe_write_file, h, input, printLn, hn', List.append_assoc]

theorem swf_dirs (p c : String) (w : World) :
    (safe_write_file p c w).fs.dirs = w.fs.dirs := by
  by_cases h : w.fs.fileExists p = true
  · by_cases hy : answerIsYes (w.stdin.headD "") = true
    · rw [swf_present_yes h hy]
      rfl
    · rw [swf_present_no h (by simpa using hy)]
  · rw [swf_absent (by simpa using h)]
    rfl

theorem swf_preExt (p c : String) (w : World) : PreExt ScafEv w (safe_write_file p c w) := by
  by_cases h : w.fs.fileExists p = true
  · by_cases hy : answerIsYes (w.stdin.headD "") = true
    · rw [swf_present_yes h hy]
      refine ⟨rfl, rfl, rfl, rfl, rfl, rfl, rfl, rfl, fun d hd => hd,
        ⟨[.prompt (.overwrite p) (w.stdin.headD ""), .print (.created p)], rfl, ?_⟩⟩
      intro e he
      rcases List.mem_cons.1 he with rfl | he
      · exact Or.inl ⟨p, _, rfl⟩
      rcases List.mem_cons.1 he with rfl | he
      · exact Or.inr (Or.inr ⟨p, rfl⟩)
      · simp at he
    · rw [swf_present_no h (by simpa using hy)]
      refine ⟨rfl, rfl, rfl, rfl, rfl, rfl, rfl, rfl, fun d hd => hd,
        ⟨[.prompt (.overwrite p) (w.stdin.headD ""), .print (.skipping (basename p))], rfl, ?_⟩⟩
      intro e he
      rcases List.mem_cons.1 he with rfl | he
      · exact Or.inl ⟨p, _, rfl⟩
      rcases List.mem_cons.1 he with rfl | he
      · exact Or.inr (Or.inl ⟨basename p, rfl⟩)
      · simp at he
  · rw [swf_absent (by simpa using h)]
    refine ⟨rfl, rfl, rfl, rfl, rfl, rfl, rfl, rfl, fun d hd => hd,
      ⟨[.print (.created p)], rfl, ?_⟩⟩
    intro e he
    rcases List.mem_cons.1 he with rfl | he
    · exact Or.inr (Or.inr ⟨p, rfl⟩)
    · simp at he

/-! ### Scaffold-writer lemmas -/

theorem cps_preExt (b n : String) (web : Bool) (w : World) :
    PreExt ScafEv w (create_project_structure b n web w) := by
  have h0 : PreExt ScafEv w
      { w with fs := (scaffold_dirs web).foldl (fun fs d => fs.mkdirP (pjoin b d)) w.fs } :=
    ⟨rfl, rfl, rfl, rfl, rfl, rfl, rfl, rfl,
      fun d hd =>
        contains_iff.mpr ((foldl_mkdirP_mem_iff _ _ _ _).mpr (Or.inr (contains_iff.mp hd))),
      ⟨[], by simp, by simp⟩⟩
  cases web with
  | false =>
    simp only [create_project_structure, Bool.false_eq_true, if_false]
    exact ((((((h0.trans (swf_preExt _ _ _)).trans (swf_preExt _ _ _)).trans
      (swf_preExt _ _ _)).trans (swf_preExt _ _ _)).trans
      (swf_preExt _ _ _)).trans (swf_preExt _ _ _)).trans (swf_preExt _ _ _)
  | true =>
    simp only [create_project_structure, if_true]
    exact ((((((((h0.trans (swf_preExt _ _ _)).trans (swf_preExt _ _ _)).trans
      (swf_preExt _ _ _)).trans (swf_preExt _ _ _)).trans
      (swf_preExt _ _ _)).trans (swf_preExt _ _ _)).trans (swf_preExt _ _ _)).trans
      (swf_preExt _ _ _)).trans (swf_preExt _ _ _)

theorem cps_fs_dirs (b n : String) (web : Bool) (w : World) :
    (create_project_structure b n web w).fs.dirs =
      ((scaffold_dirs web).foldl (fun fs d => fs.mkdirP (pjoin b d)) w.fs).dirs := by
  cases web <;> simp only [create_project_structure, Bool.false_eq_true, if_false, if_true,
    swf_dirs]

/-! ### Environment-provisioning lemmas -/

theorem venv_err1 {w : World} {b : String} (h1 : w.exitOf .venvCreate = false) :
    create_venv_and_install b w =
      (.error (), { w with trace := w.trace ++ [.exec .venvCreate (some b) false] }) := by
  simp [create_venv_and_install, run, h1]

theorem venv_err2 {w : World} {b : String} (h1 : w.exitOf .venvCreate = true)
    (h2 : w.exitOf .pipUpgrade = false) :
    create_venv_and_install b w =
      (.error (), { w with trace := w.trace ++
        [.exec .venvCreate (some b) true, .exec .pipUpgrade (some b) false] }) := by
  simp [create_venv_and_install, run, h1, h2]

theorem venv_err3 {w : World} {b : String} (h1 : w.exitOf .venvCreate = true)
    (h2 : w.exitOf .pipUpgrade = true) (h3 : w.exitOf .pipInstall = false) :
    create_venv_and_install b w =
      (.error (), { w with trace := w.trace ++
        [.exec .venvCreate (some b) true, .exec .pipUpgrade (some b) true,
          .exec .pipInstall (some b) false] }) := by
  simp [create_venv_and_install, run, h1, h2, h3]

theorem venv_ok {w : World} {b : String} (h1 : w.exitOf .venvCreate = true)
    (h2 : w.exitOf .pipUpgrade = true) (h3 : w.exitOf .pipInstall = true) :
    create_venv_and_install b w =
      (.ok (), { w with trace := w.trace ++
        [.exec .venvCreate (some b) true, .exec .pipUpgrade (some b) true,
          .exec .pipInstall (some b) true] }) := by
  simp [create_venv_and_install, run, h1, h2, h3]

/-! ### Version-control lemmas -/

theorem git_err1 {w : World} {b : String} (h1 : w.exitOf .gitInit = false) :
    init_git_repo b w =
      (.error (), { w with trace := w.trace ++ [.exec .gitInit (some b) false] }) := by
  simp [init_git_repo, run, h1]

theorem git_err2 {w : World} {b : String} (h1 : w.exitOf .gitInit = true)
    (h2 : w.exitOf .gitAdd = false) :
    init_git_repo b w =
      (.error (), { w with trace := w.trace ++
        [.exec .gitInit (some b) true, .exec .gitAdd (some b) false] }) := by
  simp [init_git_repo, run, h1, h2]

theorem git_warn {w : World} {b : String} (h1 : w.exitOf .gitInit = true)
    (h2 : w.exitOf .gitAdd = true) (h3 : w.exitOf .gitCommit = false) :
    init_git_repo b w =
      (.ok (), { w with trace := w.trace ++
        [.exec .gitInit (some b) true, .exec .gitAdd (some b) true,
          .exec .gitCommit (some b) false, .print .gitCommitFailed] }) := by
  simp [init_git_repo, run, printLn, h1, h2, h3, List.append_assoc]

theorem git_ok {w : World} {b : String} (h1 : w.exitOf .gitInit = true)
    (h2 : w.exitOf .gitAdd = true) (h3 : w.exitOf .gitCommit = true) :
    init_git_repo b w =
      (.ok (), { w with trace := w.trace ++
        [.exec .gitInit (some b) true, .exec .gitAdd (some b) true,
          .exec .gitCommit (some b) true] }) := by
  simp [init_git_repo, run, h1, h2, h3]

theorem pjoin_ne_of_ne {x y : String} (b : String) (h : x ≠ y) : pjoin b x ≠ pjoin b y :=
  fun e => h (pjoin_eq_pjoin_iff.mp e)

theorem swf_readFile_other {q p : String} (hne : q ≠ p) (c : String) (w : World) :
    (safe_write_file p c w).fs.readFile q = w.fs.readFile q := by
  by_cases h : w.fs.fileExists p = true
  · by_cases hy : answerIsYes (w.stdin.headD "") = true
    · rw [swf_present_yes h hy]
      exact FS.readFile_write_ne _ hne _
    · rw [swf_present_no h (by simpa using hy)]
  · rw [swf_absent (by simpa using h)]
    exact FS.readFile_write_ne _ hne _

theorem swf_fileExists_other {q p : String} (hne : q ≠ p) (c : String) (w : World) :
    (safe_write_file p c w).fs.fileExists q = w.fs.fileExists q := by
  by_cases h : w.fs.fileExists p = true
  · by_cases hy : answerIsYes (w.stdin.headD "") = true
    · rw [swf_present_yes h hy]
      exact FS.fileExists_write_ne _ hne _
    · rw [swf_present_no h (by simpa using hy)]
  · rw [swf_absent (by simpa using h)]
    exact FS.fileExists_write_ne _ hne _

theorem swf_readFile_self_absent {w : World} {p : String}
    (h : w.fs.fileExists p = false) (c : String) :
    (safe_write_file p c w).fs.readFile p = some c := by
  rw [swf_absent h]
  exact FS.readFile_write_self _ _ _

theorem FS.mkdirP_files (fs : FS) (d : String) : (fs.mkdirP d).files = fs.files := by
  unfold FS.mkdirP
  split <;> rfl

theorem foldl_mkdirP_files (g : String → String) (l : List String) (fs : FS) :
    (l.foldl (fun fs d => fs.mkdirP (g d)) fs).files = fs.files := by
  induction l generalizing fs with
  | nil => rfl
  | cons hd tl ih => simp [List.foldl_cons, ih, FS.mkdirP_files]

theorem foldl_mkdirP_fileExists (g : String → String) (l : List String) (fs : FS)
    (q : String) :
    (l.foldl (fun fs d => fs.mkdirP (g d)) fs).fileExists q = fs.fileExists q := by
  simp [FS.fileExists, foldl_mkdirP_files]

theorem foldl_mkdirP_readFile (g : String → String) (l : List String) (fs : FS)
    (q : String) :
    (l.foldl (fun fs d => fs.mkdirP (g d)) fs).readFile q = fs.readFile q := by
  simp [FS.readFile, foldl_mkdirP_files]

/-! ### Whole-stage specs for the environment and version-control stages -/

theorem venv_spec (b : String) (w : World) :
    ∃ res w', create_venv_and_install b w = (res, w') ∧ w'.fs = w.fs ∧
      w'.stdin = w.stdin ∧ w'.exitOf = w.exitOf ∧ w'.whichGh = w.whichGh ∧
      w'.auth = w.auth ∧ w'.ghFound = w.ghFound ∧
      (∃ δ, w'.trace = w.trace ++ δ ∧ ∀ e ∈ δ, EnvEv e) ∧
      (res = .ok () ↔ w.exitOf .venvCreate = true ∧ w.exitOf .pipUpgrade = true ∧
        w.exitOf .pipInstall = true) := by
  by_cases h1 : w.exitOf .venvCreate = true
  · by_cases h2 : w.exitOf .pipUpgrade = true
    · by_cases h3 : w.exitOf .pipInstall = true
      · rw [venv_ok h1 h2 h3]
        refine ⟨_, _, rfl, rfl, rfl, rfl, rfl, rfl, rfl, ⟨_, rfl, ?_⟩, by simp [h1, h2, h3]⟩
        intro e he
        simp only [List.mem_cons] at he
        rcases he with rfl | rfl | rfl | he
        · exact ⟨_, _, Or.inl rfl⟩
        · exact ⟨_, _, Or.inr (Or.inl rfl)⟩
        · exact ⟨_, _, Or.inr (Or.inr rfl)⟩
        · simp at he
      · have h3' : w.exitOf .pipInstall = false := by simpa using h3
        rw [venv_err3 h1 h2 h3']
        refine ⟨_, _, rfl, rfl, rfl, rfl, rfl, rfl, rfl, ⟨_, rfl, ?_⟩, by simp [h3']⟩
        intro e he
        simp only [List.mem_cons] at he
        rcases he with rfl | rfl | rfl | he
        · exact ⟨_, _, Or.inl rfl⟩
        · exact ⟨_, _, Or.inr (Or.inl rfl)⟩
        · exact ⟨_, _, Or.inr (Or.inr rfl)⟩
        · simp at he
    · have h2' : w.exitOf .pipUpgrade = false := by simpa using h2
      rw [venv_err2 h1 h2']
      refine ⟨_, _, rfl, rfl, rfl, rfl, rfl, rfl, rfl, ⟨_, rfl, ?_⟩, by simp [h2']⟩
      intro e he
      simp only [List.mem_cons] at he
      rcases he with rfl | rfl | he
      · exact ⟨_, _, Or.inl rfl⟩
      · exact ⟨_, _, Or.inr (Or.inl rfl)⟩
      · simp at he
  · have h1' : w.exitOf .venvCreate = false := by simpa using h1
    rw [venv_err1 h1']
    refine ⟨_, _, rfl, rfl, rfl, rfl, rfl, rfl, rfl, ⟨_, rfl, ?_⟩, by simp [h1']⟩
    intro e he
    simp only [List.mem_cons] at he
    rcases he with rfl | he
    · exact ⟨_, _, Or.inl rfl⟩
    · simp at he

theorem git_spec (b : String) (w : World) :
    ∃ res w', init_git_repo b w = (res, w') ∧ w'.fs = w.fs ∧
      w'.stdin = w.stdin ∧ w'.exitOf = w.exitOf ∧ w'.whichGh = w.whichGh ∧
      w'.auth = w.auth ∧ w'.ghFound = w.ghFound ∧
      (∃ δ, w'.trace = w.trace ++ δ ∧ (∀ e ∈ δ, GitEv e) ∧
        (Event.print .gitCommitFailed ∈ δ ↔ (w.exitOf .gitInit = true ∧
          w.exitOf .gitAdd = true ∧ w.exitOf .gitCommit = false))) ∧
      (res = .ok () ↔ w.exitOf .gitInit = true ∧ w.exitOf .gitAdd = true) := by
  by_cases h1 : w.exitOf .gitInit = true
  · by_cases h2 : w.exitOf .gitAdd = true
    · by_cases h3 : w.exitOf .gitCommit = true
      · rw [git_ok h1 h2 h3]
        refine ⟨_, _, rfl, rfl, rfl, rfl, rfl, rfl, rfl, ⟨_, rfl, ?_, by simp [h3]⟩,
          by simp [h1, h2]⟩
        intro e he
        simp only [List.mem_cons] at he
        rcases he with rfl | rfl | rfl | he
        · exact Or.inl ⟨_, _, Or.inl rfl⟩
        · exact Or.inl ⟨_, _, Or.inr (Or.inl rfl)⟩
        · exact Or.inl ⟨_, _, Or.inr (Or.inr rfl)⟩
        · simp at he
      · have h3' : w.exitOf .gitCommit = false := by simpa using h3
        rw [git_warn h1 h2 h3']
        refine ⟨_, _, rfl, rfl, rfl, rfl, rfl, rfl, rfl, ⟨_, rfl, ?_, by simp [h1, h2, h3']⟩,
          by simp [h1, h2]⟩
        intro e he
        simp only [List.mem_cons] at he
        rcases he with rfl | rfl | rfl | rfl | he
        · exact Or.inl ⟨_, _, Or.inl rfl⟩
        · exact Or.inl ⟨_, _, Or.inr (Or.inl rfl)⟩
        · exact Or.inl ⟨_, _, Or.inr (Or.inr rfl)⟩
        · exact Or.inr rfl
        · simp at he
    · have h2' : w.exitOf .gitAdd = false := by simpa using h2
      rw [git_err2 h1 h2']
      refine ⟨_, _, rfl, rfl, rfl, rfl, rfl, rfl, rfl, ⟨_, rfl, ?_, by simp [h2']⟩,
        by simp [h2']⟩
      intro e he
      simp only [List.mem_cons] at he
      rcases he with rfl | rfl | he
      · exact Or.inl ⟨_, _, Or.inl rfl⟩
      · exact Or.inl ⟨_, _, Or.inr (Or.inl rfl)⟩
      · simp at he
  · have h1' : w.exitOf .gitInit = false := by simpa using h1
    rw [git_err1 h1']
    refine ⟨_, _, rfl, rfl, rfl, rfl, rfl, rfl, rfl, ⟨_, rfl, ?_, by simp [h1']⟩,
      by simp [h1']⟩
    intro e he
    simp only [List.mem_cons] at he
    rcases he with rfl | he
    · exact Or.inl ⟨_, _, Or.inl rfl⟩
    · simp at he

/-! ### Hosting-stage lemmas -/

theorem run_eq (c : Cmd) (cwd : Option String) (w : World) :
    run c cwd w =
      ((if w.exitOf c = true then .ok () else .error ()),
        { w with trace := w.trace ++ [.exec c cwd (w.exitOf c)] }) := by
  by_cases h : w.exitOf c = true
  · rw [run_ok h, if_pos h, h]
  · have h' : w.exitOf c = false := by simpa using h
    rw [run_err h', if_neg h, h']

theorem grc_spec (b n : String) (w : World) :
    gh_repo_create b n w =
      ((if w.exitOf (.ghRepoCreate n (chooseVisibility (w.stdin.headD ""))) = true
          then .ok () else .error ()),
        { w with
            stdin := w.stdin.tail,
            trace := w.trace ++
              [.prompt .visibility (w.stdin.headD ""),
                .exec (.ghRepoCreate n (chooseVisibility (w.stdin.headD ""))) (some b)
                  (w.exitOf (.ghRepoCreate n (chooseVisibility (w.stdin.headD ""))))] }) := by
  simp [gh_repo_create, input, run_eq, List.append_assoc]

theorem push_notfound {w : World} (h : w.ghFound = false) (b n : String) :
    push_to_github b n w =
      (.ok (), { w with trace := w.trace ++ [.print .ghNotInstalled] }) := by
  simp [push_to_github, h, printLn]

theorem push_auth_ok {w : World} (hgh : w.ghFound = true) (ha : w.auth.headD false = true)
    (b n : String) :
    push_to_github b n w = gh_repo_create b n { w with auth := w.auth.tail } := by
  have ha' : w.auth.head?.getD false = true := by simpa using ha
  simp [push_to_github, hgh, gh_authenticated, ha']

theorem push_unauth_decline {w : World} (hgh : w.ghFound = true)
    (ha : w.auth.headD false = false) (hn : answerIsYes (w.stdin.headD "") = false)
    (b n : String) :
    push_to_github b n w =
      (.ok (), { w with
          auth := w.auth.tail,
          stdin := w.stdin.tail,
          trace := w.trace ++
            [.print .ghNotAuthenticated, .prompt .authLogin (w.stdin.headD ""),
              .print .skippingPush] }) := by
  have ha' : w.auth.head?.getD false = false := by simpa using ha
  have hn' : answerIsYes (w.stdin.head?.getD "") = false := by simpa using hn
  simp [push_to_github, hgh, gh_authenticated, ha', input, printLn, hn', List.append_assoc]

theorem push_login_fail {w : World} (hgh : w.ghFound = true)
    (ha : w.auth.headD false = false) (hy : answerIsYes (w.stdin.headD "") = true)
    (hx : w.exitOf .ghAuthLogin = false) (b n : String) :
    push_to_github b n w =
      (.ok (), { w with
          auth := w.auth.tail,
          stdin := w.stdin.tail,
          trace := w.trace ++
            [.print .ghNotAuthenticated, .prompt .authLogin (w.stdin.headD ""),
              .exec .ghAuthLogin none false, .print .authFailed] }) := by
  have ha' : w.auth.head?.getD false = false := by simpa using ha
  have hy' : answerIsYes (w.stdin.head?.getD "") = true := by simpa using hy
  simp [push_to_github, hgh, gh_authenticated, ha', input, printLn, hy', run, hx,
    List.append_assoc]

theorem push_still_unauth {w : World} (hgh : w.ghFound = true)
    (ha : w.auth.headD false = false) (hy : answerIsYes (w.stdin.headD "") = true)
    (hx : w.exitOf .ghAuthLogin = true) (ha2 : w.auth.tail.headD false = false)
    (b n : String) :
    push_to_github b n w =
      (.ok (), { w with
          auth := w.auth.tail.tail,
          stdin := w.stdin.tail,
          trace := w.trace ++
            [.print .ghNotAuthenticated, .prompt .authLogin (w.stdin.headD ""),
              .exec .ghAuthLogin none true, .print .stillNotAuthenticated] }) := by
  have ha' : w.auth.head?.getD false = false := by simpa using ha
  have hy' : answerIsYes (w.stdin.head?.getD "") = true := by simpa using hy
  have ha2' : w.auth[1]?.getD false = false := by simpa using ha2
  simp [push_to_github, hgh, gh_authenticated, ha', input, printLn, hy', run, hx, ha2',
    List.append_assoc]

theorem push_login_ok {w : World} (hgh : w.ghFound = true)
    (ha : w.auth.headD false = false) (hy : answerIsYes (w.stdin.headD "") = true)
    (hx : w.exitOf .ghAuthLogin = true) (ha2 : w.auth.tail.headD false = true)
    (b n : String) :
    push_to_github b n w =
      gh_repo_create b n
        { w with
            auth := w.auth.tail.tail,
            stdin := w.stdin.tail,
            trace := w.trace ++
              [.print .ghNotAuthenticated, .prompt .authLogin (w.stdin.headD ""),
                .exec .ghAuthLogin none true] } := by
  have ha' : w.auth.head?.getD false = false := by simpa using ha
  have hy' : answerIsYes (w.stdin.head?.getD "") = true := by simpa using hy
  have ha2' : w.auth[1]?.getD false = true := by simpa using ha2
  simp [push_to_github, hgh, gh_authenticated, ha', input, printLn, hy', run, hx, ha2',
    List.append_assoc]

theorem install_spec (w : World) :
    ∃ res w', install_github_cli w = (res, w') ∧
      w'.fs = w.fs ∧ w'.stdin = w.stdin ∧ w'.exitOf = w.exitOf ∧ w'.ghFound = w.ghFound ∧
      w'.auth = w.auth ∧
      (∃ δ, w'.trace = w.trace ++ δ ∧
        ∀ e ∈ δ, InstallEv e) ∧
      (res = .error () → w.exitOf .brewInstallGh = false ∨ w.exitOf .aptInstallGh = false ∨
        w.exitOf .dnfInstallGh = false) := by
  unfold install_github_cli
  split
  case isTrue hD =>
    split
    case isTrue hb =>
      refine ⟨_, _, rfl, rfl, rfl, rfl, rfl, rfl, ⟨[.print .brewMissing], rfl, ?_⟩, by simp⟩
      intro e he
      simp at he
      subst he
      simp [InstallEv]
    case isFalse hb =>
      by_cases hx : w.exitOf .brewInstallGh = true
      · simp only [printLn, run, hx, if_true, github_cli_installed]
        refine ⟨_, _, rfl, rfl, rfl, rfl, rfl, rfl,
          ⟨[.print .installingBrew, .exec .brewInstallGh none true], by simp, ?_⟩, by simp⟩
        intro e he
        rcases List.mem_cons.1 he with rfl | he
        · simp [InstallEv]
        rcases List.mem_cons.1 he with rfl | he
        · simp [InstallEv]
        · simp at he
      · have hx' : w.exitOf .brewInstallGh = false := by simpa using hx
        simp only [printLn, run, hx', Bool.false_eq_true, if_false]
        refine ⟨_, _, rfl, rfl, rfl, rfl, rfl, rfl,
          ⟨[.print .installingBrew, .exec .brewInstallGh none false], by simp, ?_⟩,
          by simp⟩
        intro e he
        rcases List.mem_cons.1 he with rfl | he
        · simp [InstallEv]
        rcases List.mem_cons.1 he with rfl | he
        · simp [InstallEv]
        · simp at he
  case isFalse hD =>
    split
    case isTrue hL =>
      split
      case isTrue hapt =>
        by_cases hx : w.exitOf .aptInstallGh = true
        · simp only [printLn, run, hx, if_true, github_cli_installed]
          refine ⟨_, _, rfl, rfl, rfl, rfl, rfl, rfl,
            ⟨[.print .installingApt, .exec .aptInstallGh none true], by simp, ?_⟩, by simp⟩
          intro e he
          rcases List.mem_cons.1 he with rfl | he
          · simp [InstallEv]
          rcases List.mem_cons.1 he with rfl | he
          · simp [InstallEv]
          · simp at he
        · have hx' : w.exitOf .aptInstallGh = false := by simpa using hx
          simp only [printLn, run, hx', Bool.false_eq_true, if_false]
          refine ⟨_, _, rfl, rfl, rfl, rfl, rfl, rfl,
            ⟨[.print .installingApt, .exec .aptInstallGh none false], by simp, ?_⟩,
            by simp⟩
          intro e he
          rcases List.mem_cons.1 he with rfl | he
          · simp [InstallEv]
          rcases List.mem_cons.1 he with rfl | he
          · simp [InstallEv]
          · simp at he
      case isFalse hapt =>
        split
        case isTrue hdnf =>
          by_cases hx : w.exitOf .dnfInstallGh = true
          · simp only [printLn, run, hx, if_true, github_cli_installed]
            refine ⟨_, _, rfl, rfl, rfl, rfl, rfl, rfl,
              ⟨[.print .installingDnf, .exec .dnfInstallGh none true], by simp, ?_⟩, by simp⟩
            intro e he
            rcases List.mem_cons.1 he with rfl | he
            · simp [InstallEv]
            rcases List.mem_cons.1 he with rfl | he
            · simp [InstallEv]
            · simp at he
          · have hx' : w.exitOf .dnfInstallGh = false := by simpa using hx
            simp only [printLn, run, hx', Bool.false_eq_true, if_false]
            refine ⟨_, _, rfl, rfl, rfl, rfl, rfl, rfl,
              ⟨[.print .installingDnf, .exec .dnfInstallGh none false], by simp, ?_⟩,
              by simp⟩
            intro e he
            rcases List.mem_cons.1 he with rfl | he
            · simp [InstallEv]
            rcases List.mem_cons.1 he with rfl | he
            · simp [InstallEv]
            · simp at he
        case isFalse hdnf =>
          refine ⟨_, _, rfl, rfl, rfl, rfl, rfl, rfl,
            ⟨[.print .unsupportedPkgMgr], rfl, ?_⟩, by simp⟩
          intro e he
          simp at he
          subst he
          simp [InstallEv]
    case isFalse hL =>
      refine ⟨_, _, rfl, rfl, rfl, rfl, rfl, rfl, ⟨[.print .unsupportedOS], rfl, ?_⟩, by simp⟩
      intro e he
      simp at he
      subst he
      simp [InstallEv]

theorem installEv_not_prompt {e : Event} (h : InstallEv e) (id : PromptId) (a : String) :
    e ≠ Event.prompt id a := by
  rcases h with rfl | rfl | rfl | rfl | rfl | rfl | ⟨cwd, bb, rfl | rfl | rfl⟩ <;> simp

theorem installEv_not_success {e : Event} (h : InstallEv e) (nm bp : String) :
    e ≠ Event.print (.success nm bp) := by
  rcases h with rfl | rfl | rfl | rfl | rfl | rfl | ⟨cwd, bb, rfl | rfl | rfl⟩ <;> simp

theorem pushEv_not_success {e : Event} (h : PushEv e) (nm bp : String) :
    e ≠ Event.print (.success nm bp) := by
  rcases h with rfl | rfl | rfl | rfl | rfl | ⟨a, rfl⟩ | ⟨a, rfl⟩ | ⟨cwd, bb, rfl⟩ |
    ⟨nm2, v, cwd, bb, rfl⟩ <;> simp

theorem push_spec (b n : String) (w : World) :
    ∃ res w' δ, push_to_github b n w = (res, w') ∧ w'.fs = w.fs ∧ w'.exitOf = w.exitOf ∧
      w'.trace = w.trace ++ δ ∧ (∀ e ∈ δ, PushEv e) ∧
      (res = .error () → ∃ v, w.exitOf (.ghRepoCreate n v) = false) := by
  by_cases hgh : w.ghFound = true
  · by_cases ha : w.auth.headD false = true
    · rw [push_auth_ok hgh ha, grc_spec]
      refine ⟨_, _, _, rfl, rfl, rfl, rfl, ?_, ?_⟩
      · intro e he
        rcases List.mem_cons.1 he with rfl | he
        · simp [PushEv]
        rcases List.mem_cons.1 he with rfl | he
        · simp [PushEv]
        · simp at he
      · intro herr
        simp at herr
        exact ⟨_, herr⟩
    · have ha' : w.auth.headD false = false := by simpa using ha
      by_cases hy : answerIsYes (w.stdin.headD "") = true
      · by_cases hx : w.exitOf .ghAuthLogin = true
        · by_cases ha2 : w.auth.tail.headD false = true
          · rw [push_login_ok hgh ha' hy hx ha2, grc_spec]
            refine ⟨_, _,
              [.print .ghNotAuthenticated, .prompt .authLogin (w.stdin.headD ""),
                .exec .ghAuthLogin none true,
                .prompt .visibility (w.stdin.tail.headD ""),
                .exec (.ghRepoCreate n (chooseVisibility (w.stdin.tail.headD "")))
                  (some b)
                  (w.exitOf (.ghRepoCreate n (chooseVisibility (w.stdin.tail.headD ""))))],
              rfl, rfl, rfl, by simp [List.append_assoc], ?_, ?_⟩
            · intro e he
              simp only [List.mem_cons] at he
              rcases he with rfl | rfl | rfl | rfl | rfl | he
              · simp [PushEv]
              · simp [PushEv]
              · simp [PushEv]
              · simp [PushEv]
              · simp [PushEv]
              · simp at he
            · intro herr
              simp at herr
              exact ⟨_, herr⟩
          · rw [push_still_unauth hgh ha' hy hx (by simpa using ha2)]
            refine ⟨_, _, _, rfl, rfl, rfl, rfl, ?_, by simp⟩
            intro e he
            simp only [List.mem_cons] at he
            rcases he with rfl | rfl | rfl | rfl | he
            · simp [PushEv]
            · simp [PushEv]
            · simp [PushEv]
            · simp [PushEv]
            · simp at he
        · rw [push_login_fail hgh ha' hy (by simpa using hx)]
          refine ⟨_, _, _, rfl, rfl, rfl, rfl, ?_, by simp⟩
          intro e he
          simp only [List.mem_cons] at he
          rcases he with rfl | rfl | rfl | rfl | he
          · simp [PushEv]
          · simp [PushEv]
          · simp [PushEv]
          · simp [PushEv]
          · simp at he
      · rw [push_unauth_decline hgh ha' (by simpa using hy)]
        refine ⟨_, _, _, rfl, rfl, rfl, rfl, ?_, by simp⟩
        intro e he
        simp only [List.mem_cons] at he
        rcases he with rfl | rfl | rfl | he
        · simp [PushEv]
        · simp [PushEv]
        · simp [PushEv]
        · simp at he
  · rw [push_notfound (by simpa using hgh)]
    refine ⟨_, _, _, rfl, rfl, rfl, rfl, ?_, by simp⟩
    intro e he
    simp only [List.mem_cons] at he
    rcases he with rfl | he
    · simp [PushEv]
    · simp at he

/-! ### Push-phase and `main_gh` reduction lemmas -/

theorem push_phase_false (b n : String) (w : World) :
    main_gh_push_phase b n false w = (.ok (), printLn (.success n b) w) := by
  simp [main_gh_push_phase]

theorem push_phase_true_no {w : World} (hy : answerIsYes (w.stdin.headD "") = false)
    (b n : String) :
    main_gh_push_phase b n true w =
      (.ok (), printLn (.success n b)
        { w with
            stdin := w.stdin.tail,
            trace := w.trace ++ [.prompt .push (w.stdin.headD "")] }) := by
  have hy' : answerIsYes (w.stdin.head?.getD "") = false := by simpa using hy
  simp [main_gh_push_phase, input, hy']

theorem push_phase_true_yes {w : World} (hy : answerIsYes (w.stdin.headD "") = true)
    (b n : String) :
    main_gh_push_phase b n true w =
      (match push_to_github b n
          { w with
              stdin := w.stdin.tail,
              trace := w.trace ++ [.prompt .push (w.stdin.headD "")] } with
        | (.error e, w') => (.error e, w')
        | (.ok _, w') => (.ok (), printLn (.success n b) w')) := by
  have hy' : answerIsYes (w.stdin.head?.getD "") = true := by simpa using hy
  simp [main_gh_push_phase, input, hy']

theorem main_gh_ready {w : World} (hg : w.whichGh.headD false = true) (b n : String) :
    main_gh b n w = main_gh_push_phase b n true { w with whichGh := w.whichGh.tail } := by
  have hg' : w.whichGh.head?.getD false = true := by simpa using hg
  simp [main_gh, github_cli_installed, hg']

theorem main_gh_install_declined {w : World} (hg : w.whichGh.headD false = false)
    (hy : answerIsYes (w.stdin.headD "") = false) (b n : String) :
    main_gh b n w =
      main_gh_push_phase b n false
        { w with
            whichGh := w.whichGh.tail,
            stdin := w.stdin.tail,
            trace := w.trace ++ [.prompt .installGh (w.stdin.headD "")] } := by
  have hg' : w.whichGh.head?.getD false = false := by simpa using hg
  have hy' : answerIsYes (w.stdin.head?.getD "") = false := by simpa using hy
  simp [main_gh, github_cli_installed, hg', input, hy']

theorem main_gh_install_accepted {w : World} (hg : w.whichGh.headD false = false)
    (hy : answerIsYes (w.stdin.headD "") = true) (b n : String) :
    main_gh b n w =
      (match install_github_cli
          { w with
              whichGh := w.whichGh.tail,
              stdin := w.stdin.tail,
              trace := w.trace ++ [.prompt .installGh (w.stdin.headD "")] } with
        | (.error e, w') => (.error e, w')
        | (.ok gr, w') => main_gh_push_phase b n gr w') := by
  have hg' : w.whichGh.head?.getD false = false := by simpa using hg
  have hy' : answerIsYes (w.stdin.head?.getD "") = true := by simpa using hy
  simp [main_gh, github_cli_installed, hg', input, hy']

theorem push_phase_spec (b n : String) (gh_ready : Bool) (w : World) :
    ∃ res w' δ, main_gh_push_phase b n gh_ready w = (res, w') ∧ w'.fs = w.fs ∧
      w'.trace = w.trace ++ δ ∧
      (∃ δ₁ δ₂, δ = δ₁ ++ δ₂ ∧ (∀ a, Event.prompt .authLogin a ∉ δ₁) ∧
        (δ₂ = [] ∨ ∃ ans δ₃, δ₂ = Event.prompt .push ans :: δ₃ ∧ answerIsYes ans = true)) ∧
      (res = .error () → Event.print (.success n b) ∉ δ ∧
        ∃ v, w.exitOf (.ghRepoCreate n v) = false) ∧
      (res = .ok () → Event.print (.success n b) ∈ δ) ∧
      (gh_ready = true → ∃ a, Event.prompt .push a ∈ δ) := by
  cases gh_ready with
  | false =>
    rw [push_phase_false]
    exact ⟨_, _, [.print (.success n b)], rfl, rfl, rfl,
      ⟨[.print (.success n b)], [], by simp, by simp, Or.inl rfl⟩,
      by simp, by simp, by simp⟩
  | true =>
    by_cases hy : answerIsYes (w.stdin.headD "") = true
    · rw [push_phase_true_yes hy]
      obtain ⟨res, w', δp, hpush, hfs, hex, htr, hcls, herr⟩ :=
        push_spec b n
          { w with
              stdin := w.stdin.tail,
              trace := w.trace ++ [.prompt .push (w.stdin.headD "")] }
      rw [hpush]
      cases res with
      | error e =>
        cases e
        refine ⟨_, _, Event.prompt .push (w.stdin.headD "") :: δp, rfl, hfs, ?_, ?_, ?_,
          by intro h; simp at h, by intro h; exact ⟨_, List.mem_cons_self _ _⟩⟩
        · rw [htr]
          simp
        · exact ⟨[], _, rfl, by simp, Or.inr ⟨_, δp, rfl, hy⟩⟩
        · intro _
          constructor
          · intro hmem
            rcases List.mem_cons.1 hmem with heq | hmem
            · simp at heq
            · exact pushEv_not_success (hcls _ hmem) n b rfl
          · exact herr rfl
      | ok u =>
        cases u
        refine ⟨_, _, Event.prompt .push (w.stdin.headD "") :: (δp ++ [.print (.success n b)]),
          rfl, hfs, ?_, ?_, by intro h; simp at h, ?_,
          by intro h; exact ⟨_, List.mem_cons_self _ _⟩⟩
        · show (printLn (.success n b) w').trace = _
          simp [printLn, htr]
        · exact ⟨[], _, rfl, by simp, Or.inr ⟨_, _, rfl, hy⟩⟩
        · intro _
          simp
    · rw [push_phase_true_no (by simpa using hy)]
      refine ⟨_, _, [.prompt .push (w.stdin.headD ""), .print (.success n b)], rfl, rfl, ?_,
        ?_, by intro h; simp at h, by intro h; simp,
        by intro h; exact ⟨_, List.mem_cons_self _ _⟩⟩
      · simp [printLn, List.append_assoc]
      · refine ⟨[.prompt .push (w.stdin.headD ""), .print (.success n b)], [], by simp, ?_,
          Or.inl rfl⟩
        intro a
        simp

theorem main_gh_spec (b n : String) (w : World) :
    ∃ res w' δ, main_gh b n w = (res, w') ∧ w'.fs = w.fs ∧ w'.trace = w.trace ++ δ ∧
      (∃ δ₁ δ₂, δ = δ₁ ++ δ₂ ∧ (∀ a, Event.prompt .authLogin a ∉ δ₁) ∧
        (δ₂ = [] ∨ ∃ ans δ₃, δ₂ = Event.prompt .push ans :: δ₃ ∧ answerIsYes ans = true)) ∧
      (res = .error () → Event.print (.success n b) ∉ δ ∧
        ((∃ v, w.exitOf (.ghRepoCreate n v) = false) ∨ w.exitOf .brewInstallGh = false ∨
          w.exitOf .aptInstallGh = false ∨ w.exitOf .dnfInstallGh = false)) ∧
      (res = .ok () → Event.print (.success n b) ∈ δ) ∧
      ((∃ a, Event.prompt .installGh a ∈ δ) ∨ (∃ a, Event.prompt .push a ∈ δ)) := by
  by_cases hg : w.whichGh.headD false = true
  · rw [main_gh_ready hg]
    obtain ⟨res, w', δ, heq, hfs, htr, hsplit, herr, hok, hready⟩ :=
      push_phase_spec b n true { w with whichGh := w.whichGh.tail }
    refine ⟨res, w', δ, heq, hfs, htr, hsplit, ?_, hok, Or.inr (hready rfl)⟩
    intro h
    obtain ⟨hns, hv⟩ := herr h
    exact ⟨hns, Or.inl hv⟩
  · have hg' : w.whichGh.headD false = false := by simpa using hg
    by_cases hy : answerIsYes (w.stdin.headD "") = true
    · rw [main_gh_install_accepted hg' hy]
      obtain ⟨res_i, w₃, hinst, hfs_i, hstdin_i, hexit_i, hghF_i, hauth_i,
        ⟨δi, htr_i, hcls_i⟩, herr_i⟩ :=
        install_spec
          { w with
              whichGh := w.whichGh.tail,
              stdin := w.stdin.tail,
              trace := w.trace ++ [.prompt .installGh (w.stdin.headD "")] }
      rw [hinst]
      cases res_i with
      | error e =>
        cases e
        refine ⟨_, _, Event.prompt .installGh (w.stdin.headD "") :: δi, rfl, hfs_i, ?_,
          ?_, ?_, by intro h; simp at h, Or.inl ⟨_, List.mem_cons_self _ _⟩⟩
        · rw [htr_i]
          simp
        · refine ⟨Event.prompt .installGh (w.stdin.headD "") :: δi, [], by simp, ?_,
            Or.inl rfl⟩
          intro a hmem
          rcases List.mem_cons.1 hmem with heq | hmem
          · simp at heq
          · exact installEv_not_prompt (hcls_i _ hmem) _ _ rfl
        · intro _
          constructor
          · intro hmem
            rcases List.mem_cons.1 hmem with heq | hmem
            · simp at heq
            · exact installEv_not_success (hcls_i _ hmem) n b rfl
          · exact Or.inr (herr_i rfl)
      | ok gr =>
        obtain ⟨res, w', δp, heq, hfs, htr, ⟨δ₁, δ₂, hdd, hna, hd2⟩, herr, hok, hready⟩ :=
          push_phase_spec b n gr w₃
        refine ⟨res, w', Event.prompt .installGh (w.stdin.headD "") :: (δi ++ δp), heq,
          by rw [hfs, hfs_i], ?_, ?_, ?_, ?_, Or.inl ⟨_, List.mem_cons_self _ _⟩⟩
        · rw [htr, htr_i]
          simp
        · refine ⟨Event.prompt .installGh (w.stdin.headD "") :: (δi ++ δ₁), δ₂, by simp [hdd], ?_, hd2⟩
          intro a hmem
          rcases List.mem_cons.1 hmem with heq2 | hmem
          · simp at heq2
          rcases List.mem_append.1 hmem with hmem | hmem
          · exact installEv_not_prompt (hcls_i _ hmem) _ _ rfl
          · exact hna a hmem
        · intro h
          obtain ⟨hns, hv⟩ := herr h
          refine ⟨?_, ?_⟩
          · intro hmem
            rcases List.mem_cons.1 hmem with heq2 | hmem
            · simp at heq2
            rcases List.mem_append.1 hmem with hmem | hmem
            · exact installEv_not_success (hcls_i _ hmem) n b rfl
            · exact hns hmem
          · obtain ⟨v, hv⟩ := hv
            rw [hexit_i] at hv
            exact Or.inl ⟨v, hv⟩
        · intro h
          have := hok h
          simp [this]
    · have hy' : answerIsYes (w.stdin.headD "") = false := by simpa using hy
      rw [main_gh_install_declined hg' hy']
      obtain ⟨res, w', δp, heq, hfs, htr, ⟨δ₁, δ₂, hdd, hna, hd2⟩, herr, hok, _⟩ :=
        push_phase_spec b n false
          { w with
              whichGh := w.whichGh.tail,
              stdin := w.stdin.tail,
              trace := w.trace ++ [.prompt .installGh (w.stdin.headD "")] }
      rw [heq]
      refine ⟨res, w', Event.prompt .installGh (w.stdin.headD "") :: δp, rfl, hfs, ?_, ?_,
        ?_, ?_, Or.inl ⟨_, List.mem_cons_self _ _⟩⟩
      · rw [htr]
        simp
      · refine ⟨Event.prompt .installGh (w.stdin.headD "") :: δ₁, δ₂, by simp [hdd], ?_, hd2⟩
        intro a hmem
        rcases List.mem_cons.1 hmem with heq2 | hmem
        · simp at heq2
        · exact hna a hmem
      · intro h
        obtain ⟨hns, hv⟩ := herr h
        refine ⟨?_, Or.inl hv⟩
        intro hmem
        rcases List.mem_cons.1 hmem with heq2 | hmem
        · simp at heq2
        · exact hns hmem
      · intro h
        have := hok h
        simp [this]

theorem contains_eq_false_iff {l : List String} {a : String} :
    l.contains a = false ↔ a ∉ l := by
  rw [← contains_iff]
  cases h : l.contains a <;> simp

/-! ### Claim theorems -/

/-- C1: for every template file whose destination already exists,
`safe_write_file` issues the overwrite prompt; on decline the filesystem is
unchanged; on acceptance (or when the file was absent, in which case no
prompt is issued) the file afterwards holds exactly the template text. -/
theorem C1_overwrite_protection (p c : String) (w : World) :
    (w.fs.fileExists p = true → answerIsYes (w.stdin.headD "") = false →
      (safe_write_file p c w).fs = w.fs ∧
      (safe_write_file p c w).trace = w.trace ++
        [Event.prompt (.overwrite p) (w.stdin.headD ""),
          Event.print (.skipping (basename p))]) ∧
    (w.fs.fileExists p = true → answerIsYes (w.stdin.headD "") = true →
      (safe_write_file p c w).fs.readFile p = some c ∧
      (safe_write_file p c w).trace = w.trace ++
        [Event.prompt (.overwrite p) (w.stdin.headD ""), Event.print (.created p)]) ∧
    (w.fs.fileExists p = false →
      (safe_write_file p c w).fs.readFile p = some c ∧
      (safe_write_file p c w).trace = w.trace ++ [Event.print (.created p)]) := by
  refine ⟨fun h hn => ?_, fun h hy => ?_, fun h => ?_⟩
  · rw [swf_present_no h hn]
    exact ⟨rfl, rfl⟩
  · rw [swf_present_yes h hy]
    exact ⟨FS.readFile_write_self _ _ _, rfl⟩
  · rw [swf_absent h]
    exact ⟨FS.readFile_write_self _ _ _, rfl⟩

/-- Witness for C1 at concrete worlds: a declined overwrite leaves the old
content, an accepted overwrite and a fresh write store the template text. -/
theorem C1_overwrite_protection_witness :
    (safe_write_file "/p/a" "new"
        { fs := ⟨[("/p/a", "old")], []⟩, stdin := ["n"], exitOf := fun _ => true,
          whichGh := [], auth := [], ghFound := false, system := "", whichBrew := false,
          whichApt := false, whichDnf := false, trace := [] }).fs.readFile "/p/a" =
      some "old" ∧
    (safe_write_file "/p/a" "new"
        { fs := ⟨[("/p/a", "old")], []⟩, stdin := ["y"], exitOf := fun _ => true,
          whichGh := [], auth := [], ghFound := false, system := "", whichBrew := false,
          whichApt := false, whichDnf := false, trace := [] }).fs.readFile "/p/a" =
      some "new" ∧
    (safe_write_file "/p/b" "new"
        { fs := ⟨[], []⟩, stdin := [], exitOf := fun _ => true,
          whichGh := [], auth := [], ghFound := false, system := "", whichBrew := false,
          whichApt := false, whichDnf := false, trace := [] }).fs.readFile "/p/b" =
      some "new" := by
  refine ⟨?_, ?_, ?_⟩
  · have h := (C1_overwrite_protection "/p/a" "new"
      { fs := ⟨[("/p/a", "old")], []⟩, stdin := ["n"], exitOf := fun _ => true,
        whichGh := [], auth := [], ghFound := false, system := "", whichBrew := false,
        whichApt := false, whichDnf := false, trace := [] }).1 (by decide) (by decide)
    rw [h.1]
    decide
  · exact ((C1_overwrite_protection "/p/a" "new"
      { fs := ⟨[("/p/a", "old")], []⟩, stdin := ["y"], exitOf := fun _ => true,
        whichGh := [], auth := [], ghFound := false, system := "", whichBrew := false,
        whichApt := false, whichDnf := false, trace := [] }).2.1 (by decide) (by decide)).1
  · exact ((C1_overwrite_protection "/p/b" "new"
      { fs := ⟨[], []⟩, stdin := [], exitOf := fun _ => true,
        whichGh := [], auth := [], ghFound := false, system := "", whichBrew := false,
        whichApt := false, whichDnf := false, trace := [] }).2.2 (by decide)).1

/-- C5: when their writes go through, `requirements.txt` holds exactly the one
base dependency and `requirements-dev.txt` exactly the two development
dependencies, each line terminated by a newline. -/
theorem C5_dependency_manifests (b n : String) (web : Bool) (w : World)
    (h1 : w.fs.fileExists (pjoin b "requirements.txt") = false)
    (h2 : w.fs.fileExists (pjoin b "requirements-dev.txt") = false) :
    (create_project_structure b n web w).fs.readFile (pjoin b "requirements.txt") =
        some requirements_content ∧
    (create_project_structure b n web w).fs.readFile (pjoin b "requirements-dev.txt") =
        some requirements_dev_content ∧
    requirements_content = String.intercalate "\n" BASE_DEPENDENCIES ++ "\n" ∧
    requirements_dev_content = String.intercalate "\n" DEV_DEPENDENCIES ++ "\n" ∧
    BASE_DEPENDENCIES = ["psycopg2-binary"] ∧ DEV_DEPENDENCIES = ["ruff", "pytest"] ∧
    requirements_content = "psycopg2-binary" ++ "\n" ∧
    requirements_dev_content = ("ruff" ++ "\n") ++ ("pytest" ++ "\n") ∧
    ('\n' ∉ ("psycopg2-binary" : String).data) ∧
    ('\n' ∉ ("ruff" : String).data) ∧ ('\n' ∉ ("pytest" : String).data) := by
  refine ⟨?_, ?_, rfl, rfl, rfl, rfl, by decide, by decide, by decide, by decide, by decide⟩
  · cases web <;>
      simp [create_project_structure, swf_readFile_other, swf_fileExists_other,
        swf_readFile_self_absent, foldl_mkdirP_fileExists, pjoin_pjoin, h1]
  · cases web <;>
      simp [create_project_structure, swf_readFile_other, swf_fileExists_other,
        swf_readFile_self_absent, foldl_mkdirP_fileExists, pjoin_pjoin, h1, h2]

/-- Witness for C5 on a fresh target. -/
theorem C5_dependency_manifests_witness :
    (create_project_structure "/p" "p" false
        { fs := ⟨[], []⟩, stdin := [], exitOf := fun _ => true, whichGh := [], auth := [],
          ghFound := false, system := "", whichBrew := false, whichApt := false,
          whichDnf := false, trace := [] }).fs.readFile (pjoin "/p" "requirements.txt") =
      some "psycopg2-binary\n" ∧
    (create_project_structure "/p" "p" false
        { fs := ⟨[], []⟩, stdin := [], exitOf := fun _ => true, whichGh := [], auth := [],
          ghFound := false, system := "", whichBrew := false, whichApt := false,
          whichDnf := false, trace := [] }).fs.readFile (pjoin "/p" "requirements-dev.txt") =
      some "ruff\npytest\n" := by
  have h := C5_dependency_manifests "/p" "p" false
    { fs := ⟨[], []⟩, stdin := [], exitOf := fun _ => true, whichGh := [], auth := [],
      ghFound := false, system := "", whichBrew := false, whichApt := false,
      whichDnf := false, trace := [] } (by decide) (by decide)
  refine ⟨?_, ?_⟩
  · rw [h.1]
    decide
  · rw [h.2.1]
    decide

/-- C7: with the CLI present and authenticated, the push stage issues the
visibility prompt and immediately runs a single
`gh repo create <name> --source=. --<visibility> --push` command; any answer
whose stripped lowercase form is neither `public` nor `private` (the empty
string included) yields `private`. -/
theorem C7_visibility_default (b n : String) (w : World) (hgh : w.ghFound = true)
    (ha : w.auth.headD false = true) :
    (push_to_github b n w).2.trace = w.trace ++
      [Event.prompt .visibility (w.stdin.headD ""),
        Event.exec (.ghRepoCreate n (chooseVisibility (w.stdin.headD ""))) (some b)
          (w.exitOf (.ghRepoCreate n (chooseVisibility (w.stdin.headD ""))))] ∧
    (∀ s : String, pyLower (pyStrip s) ≠ "public" → pyLower (pyStrip s) ≠ "private" →
      chooseVisibility s = "private") ∧
    chooseVisibility "" = "private" ∧
    (∀ nm v : String, cmdText (.ghRepoCreate nm v) =
      "gh repo create " ++ nm ++ " --source=. --" ++ v ++ " --push") := by
  refine ⟨?_, ?_, by decide, fun nm v => rfl⟩
  · rw [push_auth_ok hgh ha, grc_spec]
  · intro s hpu hpr
    simp [chooseVisibility, hpu, hpr]

/-- Witness for C7: an authenticated run with an empty visibility answer
creates the repository as `private`. -/
theorem C7_visibility_default_witness :
    (push_to_github "/p" "p"
        { fs := ⟨[], []⟩, stdin := [""], exitOf := fun _ => true, whichGh := [],
          auth := [true], ghFound := true, system := "", whichBrew := false,
          whichApt := false, whichDnf := false, trace := [] }).2.trace =
      [Event.prompt .visibility "",
        Event.exec (.ghRepoCreate "p" "private") (some "/p") true] ∧
    chooseVisibility "PUBLISH" = "private" := by
  have h := C7_visibility_default "/p" "p"
    { fs := ⟨[], []⟩, stdin := [""], exitOf := fun _ => true, whichGh := [],
      auth := [true], ghFound := true, system := "", whichBrew := false,
      whichApt := false, whichDnf := false, trace := [] } (by decide) (by decide)
  refine ⟨?_, h.2.1 "PUBLISH" (by decide) (by decide)⟩
  rw [h.1]
  decide

/-- C8: the scaffold writer always creates `cli`, `src`, `tests`, `db` and
`scripts` under the target; `webapp` and `webapp/templates` exactly when the
web option is enabled (they stay absent otherwise on a fresh target); and
directory creation on a pre-existing directory is a no-op, never an error. -/
theorem C8_directory_layout (b n : String) (web : Bool) (w : World) :
    (∀ d, d ∈ (["cli", "src", "tests", "db", "scripts"] : List String) →
      (create_project_structure b n web w).fs.dirs.contains (pjoin b d) = true) ∧
    (web = true →
      (create_project_structure b n web w).fs.dirs.contains (pjoin b "webapp") = true ∧
      (create_project_structure b n web w).fs.dirs.contains
        (pjoin b "webapp/templates") = true) ∧
    (web = false → w.fs.dirs.contains (pjoin b "webapp") = false →
      (create_project_structure b n web w).fs.dirs.contains (pjoin b "webapp") = false) ∧
    (web = false → w.fs.dirs.contains (pjoin b "webapp/templates") = false →
      (create_project_structure b n web w).fs.dirs.contains
        (pjoin b "webapp/templates") = false) ∧
    (∀ (fs : FS) (d : String), fs.dirs.contains d = true → fs.mkdirP d = fs) := by
  refine ⟨?_, ?_, ?_, ?_, fun fs d h => FS.mkdirP_of_contains h⟩
  · intro d hd
    rw [cps_fs_dirs]
    refine contains_iff.mpr ((foldl_mkdirP_mem_iff _ _ _ _).mpr (Or.inl ⟨d, ?_, rfl⟩))
    simp only [scaffold_dirs]
    exact List.mem_append_left _ hd
  · rintro rfl
    constructor <;>
      (rw [cps_fs_dirs]
       exact contains_iff.mpr ((foldl_mkdirP_mem_iff _ _ _ _).mpr
        (Or.inl ⟨_, by simp [scaffold_dirs], rfl⟩)))
  · rintro rfl hfresh
    rw [cps_fs_dirs, contains_eq_false_iff]
    intro hmem
    rcases (foldl_mkdirP_mem_iff _ _ _ _).mp hmem with ⟨y, hy, he⟩ | hmem
    · have hyw : y = "webapp" := pjoin_eq_pjoin_iff.mp he
      subst hyw
      simp [scaffold_dirs] at hy
    · exact (contains_eq_false_iff.mp hfresh) hmem
  · rintro rfl hfresh
    rw [cps_fs_dirs, contains_eq_false_iff]
    intro hmem
    rcases (foldl_mkdirP_mem_iff _ _ _ _).mp hmem with ⟨y, hy, he⟩ | hmem
    · have hyw : y = "webapp/templates" := pjoin_eq_pjoin_iff.mp he
      subst hyw
      simp [scaffold_dirs] at hy
    · exact (contains_eq_false_iff.mp hfresh) hmem

/-- Witness for C8 on a fresh target, with and without the web option. -/
theorem C8_directory_layout_witness :
    (create_project_structure "/p" "p" false
        { fs := ⟨[], []⟩, stdin := [], exitOf := fun _ => true, whichGh := [], auth := [],
          ghFound := false, system := "", whichBrew := false, whichApt := false,
          whichDnf := false, trace := [] }).fs.dirs.contains (pjoin "/p" "cli") = true ∧
    (create_project_structure "/p" "p" false
        { fs := ⟨[], []⟩, stdin := [], exitOf := fun _ => true, whichGh := [], auth := [],
          ghFound := false, system := "", whichBrew := false, whichApt := false,
          whichDnf := false, trace := [] }).fs.dirs.contains (pjoin "/p" "webapp") = false ∧
    (create_project_structure "/p" "p" true
        { fs := ⟨[], []⟩, stdin := [], exitOf := fun _ => true, whichGh := [], auth := [],
          ghFound := false, system := "", whichBrew := false, whichApt := false,
          whichDnf := false, trace := [] }).fs.dirs.contains (pjoin "/p" "webapp") = true ∧
    FS.mkdirP ⟨[], ["/d"]⟩ "/d" = ⟨[], ["/d"]⟩ := by
  refine ⟨(C8_directory_layout "/p" "p" false
      { fs := ⟨[], []⟩, stdin := [], exitOf := fun _ => true, whichGh := [], auth := [],
        ghFound := false, system := "", whichBrew := false, whichApt := false,
        whichDnf := false, trace := [] }).1 "cli" (by decide),
    (C8_directory_layout "/p" "p" false
      { fs := ⟨[], []⟩, stdin := [], exitOf := fun _ => true, whichGh := [], auth := [],
        ghFound := false, system := "", whichBrew := false, whichApt := false,
        whichDnf := false, trace := [] }).2.2.1 rfl (by decide),
    ((C8_directory_layout "/p" "p" true
      { fs := ⟨[], []⟩, stdin := [], exitOf := fun _ => true, whichGh := [], auth := [],
        ghFound := false, system := "", whichBrew := false, whichApt := false,
        whichDnf := false, trace := [] }).2.1 rfl).1,
    (C8_directory_layout "/p" "p" false
      { fs := ⟨[], []⟩, stdin := [], exitOf := fun _ => true, whichGh := [], auth := [],
        ghFound := false, system := "", whichBrew := false, whichApt := false,
        whichDnf := false, trace := [] }).2.2.2.2 ⟨[], ["/d"]⟩ "/d" (by decide)⟩

/-! ### `main` entry lemmas -/

theorem main_enter_exists {w : World} {path : String}
    (hdir : w.fs.dirs.contains path = true) :
    main path w = main_rest path (basename path) w := by
  have hdir' : path ∈ w.fs.dirs := contains_iff.mp hdir
  simp [main, hdir']

theorem main_enter_create {w : World} {path : String}
    (hdir : w.fs.dirs.contains path = false)
    (hy : answerIsYes (w.stdin.headD "") = true) :
    main path w = main_rest path (basename path)
      { w with
          fs := w.fs.mkdirP path,
          stdin := w.stdin.tail,
          trace := w.trace ++ [.prompt (.createDir path) (w.stdin.headD "")] } := by
  have hy' : answerIsYes (w.stdin.head?.getD "") = true := by simpa using hy
  have hdir' : path ∉ w.fs.dirs := contains_eq_false_iff.mp hdir
  simp [main, hdir', input, hy']

theorem main_enter_abort {w : World} {path : String}
    (hdir : w.fs.dirs.contains path = false)
    (hn : answerIsYes (w.stdin.headD "") = false) :
    main path w = (.ok (),
      { w with
          stdin := w.stdin.tail,
          trace := w.trace ++
            [Event.prompt (.createDir path) (w.stdin.headD ""),
              Event.print .aborting] }) := by
  have hn' : answerIsYes (w.stdin.head?.getD "") = false := by simpa using hn
  have hdir' : path ∉ w.fs.dirs := contains_eq_false_iff.mp hdir
  simp [main, hdir', input, printLn, hn', List.append_assoc]

theorem main_rest_dirs_mono (b n : String) (w : World) (d : String)
    (h : w.fs.dirs.contains d = true) :
    (main_rest b n w).2.fs.dirs.contains d = true := by
  have hcps := (cps_preExt b n (answerIsYes (input .includeWeb w).1)
    (input .includeWeb w).2).dirs d h
  simp only [main_rest]
  obtain ⟨rv, wv, hv, hvfs, _, _, _, _, _, _, _⟩ :=
    venv_spec b (create_project_structure b n (answerIsYes (input .includeWeb w).1)
      (input .includeWeb w).2)
  rw [hv]
  cases rv with
  | error e =>
    cases e
    show wv.fs.dirs.contains d = true
    rw [hvfs]
    exact hcps
  | ok u =>
    dsimp only
    obtain ⟨rg, wg, hg, hgfs, _, _, _, _, _, _, _⟩ := git_spec b wv
    rw [hg]
    cases rg with
    | error e =>
      cases e
      show wg.fs.dirs.contains d = true
      rw [hgfs, hvfs]
      exact hcps
    | ok u2 =>
      dsimp only
      obtain ⟨res, w', δ, heq, hfs, _, _, _, _, _⟩ := main_gh_spec b n wg
      rw [heq]
      show w'.fs.dirs.contains d = true
      rw [hfs, hgfs, hvfs]
      exact hcps

/-- C9: every yes/no prompt accepts exactly the answer whose stripped,
lowercased form is `y`; anything else (the empty string and `yes` included)
declines.  Demonstrated at the overwrite, directory-creation and push
prompt sites. -/
theorem C9_prompt_normalisation (s : String) (w : World) :
    (answerIsYes s = true ↔ pyLower (pyStrip s) = "y") ∧
    (answerIsYes "yes" = false ∧ answerIsYes "" = false ∧ answerIsYes "Y" = true ∧
      answerIsYes " y " = true) ∧
    (∀ p c, w.fs.fileExists p = true → answerIsYes (w.stdin.headD "") = false →
      (safe_write_file p c w).fs = w.fs) ∧
    (∀ p c, w.fs.fileExists p = true → answerIsYes (w.stdin.headD "") = true →
      (safe_write_file p c w).fs.readFile p = some c) ∧
    (∀ path, w.fs.dirs.contains path = false → answerIsYes (w.stdin.headD "") = false →
      main path w = (.ok (),
        { w with
            stdin := w.stdin.tail,
            trace := w.trace ++
              [Event.prompt (.createDir path) (w.stdin.headD ""),
                Event.print .aborting] })) ∧
    (∀ b n, w.whichGh.headD false = true → w.ghFound = false →
      (main_gh b n w).2.trace = w.trace ++ [Event.prompt .push (w.stdin.headD "")] ++
        (if answerIsYes (w.stdin.headD "") then [Event.print .ghNotInstalled] else []) ++
        [Event.print (.success n b)]) := by
  refine ⟨by simp [answerIsYes], ⟨by decide, by decide, by decide, by decide⟩,
    fun p c h hn => ?_, fun p c h hy => ?_, fun path hdir hn => ?_, fun b n hwg hghf => ?_⟩
  · rw [swf_present_no h hn]
  · rw [swf_present_yes h hy]
    exact FS.readFile_write_self _ _ _
  · exact main_enter_abort hdir hn
  · rw [main_gh_ready hwg]
    by_cases hy : answerIsYes (w.stdin.headD "") = true
    · simp only [push_phase_true_yes, hy]
      simp only [push_notfound, hghf]
      simp [printLn, hy, List.append_assoc]
    · have hy' : answerIsYes (w.stdin.headD "") = false := by simpa using hy
      simp only [push_phase_true_no, hy']
      simp [printLn, hy', List.append_assoc]

/-- Witness for C9: `yes` declines an overwrite; `y` accepts the push
prompt. -/
theorem C9_prompt_normalisation_witness :
    answerIsYes "yes" = false ∧
    (safe_write_file "/p/a" "x"
        { fs := ⟨[("/p/a", "old")], []⟩, stdin := ["yes"], exitOf := fun _ => true,
          whichGh := [], auth := [], ghFound := false, system := "", whichBrew := false,
          whichApt := false, whichDnf := false, trace := [] }).fs =
      ({ fs := ⟨[("/p/a", "old")], []⟩, stdin := ["yes"], exitOf := fun _ => true,
          whichGh := [], auth := [], ghFound := false, system := "", whichBrew := false,
          whichApt := false, whichDnf := false, trace := [] } : World).fs ∧
    (main_gh "/p" "p"
        { fs := ⟨[], []⟩, stdin := ["y"], exitOf := fun _ => true,
          whichGh := [true], auth := [], ghFound := false, system := "", whichBrew := false,
          whichApt := false, whichDnf := false, trace := [] }).2.trace =
      [Event.prompt .push "y", Event.print .ghNotInstalled,
        Event.print (.success "p" "/p")] := by
  refine ⟨(C9_prompt_normalisation "x"
      { fs := ⟨[], []⟩, stdin := [], exitOf := fun _ => true, whichGh := [], auth := [],
        ghFound := false, system := "", whichBrew := false, whichApt := false,
        whichDnf := false, trace := [] }).2.1.1,
    (C9_prompt_normalisation "x"
      { fs := ⟨[("/p/a", "old")], []⟩, stdin := ["yes"], exitOf := fun _ => true,
        whichGh := [], auth := [], ghFound := false, system := "", whichBrew := false,
        whichApt := false, whichDnf := false, trace := [] }).2.2.1 "/p/a" "x"
      (by decide) (by decide), ?_⟩
  have h := (C9_prompt_normalisation "x"
    { fs := ⟨[], []⟩, stdin := ["y"], exitOf := fun _ => true,
      whichGh := [true], auth := [], ghFound := false, system := "", whichBrew := false,
      whichApt := false, whichDnf := false, trace := [] }).2.2.2.2.2 "/p" "p"
    (by decide) (by decide)
  rw [h]
  decide

/-- C6: if the resolved target is absent and creation is declined, the
program prints the abort notice, mutates nothing, and returns normally; on
acceptance the directory exists for the rest of the run. -/
theorem C6_declined_creation (path : String) (w : World)
    (hdir : w.fs.dirs.contains path = false) :
    (answerIsYes (w.stdin.headD "") = false →
      main path w = (.ok (),
        { w with
            stdin := w.stdin.tail,
            trace := w.trace ++
              [Event.prompt (.createDir path) (w.stdin.headD ""),
                Event.print .aborting] }) ∧
      (main path w).2.fs = w.fs ∧ (main path w).1 = .ok ()) ∧
    (answerIsYes (w.stdin.headD "") = true →
      (main path w).2.fs.dirs.contains path = true) := by
  constructor
  · intro hn
    have h := main_enter_abort hdir hn
    refine ⟨h, ?_, ?_⟩
    · rw [h]
    · rw [h]
  · intro hy
    rw [main_enter_create hdir hy]
    refine main_rest_dirs_mono _ _ _ _ ?_
    exact contains_iff.mpr ((FS.mkdirP_mem_iff _ _ _).mpr (Or.inl rfl))

/-- Witness for C6: a declined creation aborts cleanly; an accepted one
creates the directory. -/
theorem C6_declined_creation_witness :
    (main "/q"
        { fs := ⟨[], []⟩, stdin := ["n"], exitOf := fun _ => true, whichGh := [],
          auth := [], ghFound := false, system := "", whichBrew := false,
          whichApt := false, whichDnf := false, trace := [] }).2.trace =
      [Event.prompt (.createDir "/q") "n", Event.print .aborting] ∧
    (main "/q"
        { fs := ⟨[], []⟩, stdin := ["n"], exitOf := fun _ => true, whichGh := [],
          auth := [], ghFound := false, system := "", whichBrew := false,
          whichApt := false, whichDnf := false, trace := [] }).1 = .ok () ∧
    (main "/q"
        { fs := ⟨[], []⟩, stdin := ["y", "n"], exitOf := fun _ => true, whichGh := [],
          auth := [], ghFound := false, system := "", whichBrew := false,
          whichApt := false, whichDnf := false, trace := [] }).2.fs.dirs.contains "/q" =
      true := by
  have h := (C6_declined_creation "/q"
    { fs := ⟨[], []⟩, stdin := ["n"], exitOf := fun _ => true, whichGh := [],
      auth := [], ghFound := false, system := "", whichBrew := false,
      whichApt := false, whichDnf := false, trace := [] } (by decide)).1 (by decide)
  refine ⟨?_, h.2.2, ?_⟩
  · rw [h.1]
    decide
  · exact (C6_declined_creation "/q"
      { fs := ⟨[], []⟩, stdin := ["y", "n"], exitOf := fun _ => true, whichGh := [],
        auth := [], ghFound := false, system := "", whichBrew := false,
        whichApt := false, whichDnf := false, trace := [] } (by decide)).2 (by decide)

/-! ### Event-class exclusion lemmas -/

theorem envStageEv_no_late {e : Event} (h : EnvStageEv e) :
    (∀ nm bp, e ≠ Event.print (.success nm bp)) ∧
    (∀ cwd bb, e ≠ Event.exec .gitInit cwd bb) ∧
    (∀ a, e ≠ Event.prompt .push a) ∧ (∀ a, e ≠ Event.prompt .installGh a) ∧
    (∀ a, e ≠ Event.prompt .authLogin a) ∧ (∀ a, e ≠ Event.prompt .visibility a) := by
  rcases h with ⟨bb, a, rfl⟩ | ⟨a, rfl⟩ | h | h
  · simp
  · simp
  · rcases h with ⟨q, a, rfl⟩ | ⟨nn, rfl⟩ | ⟨q, rfl⟩ <;> simp
  · rcases h with ⟨cwd, bb, rfl | rfl | rfl⟩ <;> simp

theorem gitEv_no_late {e : Event} (h : GitEv e) :
    (∀ nm bp, e ≠ Event.print (.success nm bp)) ∧
    (∀ a, e ≠ Event.prompt .push a) ∧ (∀ a, e ≠ Event.prompt .installGh a) := by
  rcases h with ⟨cwd, bb, rfl | rfl | rfl⟩ | rfl <;> simp

theorem gitStageEv_no_late {e : Event} (h : GitStageEv e) :
    (∀ nm bp, e ≠ Event.print (.success nm bp)) ∧
    (∀ a, e ≠ Event.prompt .push a) ∧ (∀ a, e ≠ Event.prompt .installGh a) := by
  rcases h with h | h
  · obtain he := envStageEv_no_late h
    exact ⟨he.1, he.2.2.1, he.2.2.2.1⟩
  · exact gitEv_no_late h

/-! ### `main_rest` composition lemmas -/

theorem main_rest_env_fail (b n : String) (w : World)
    (hfail : ¬(w.exitOf .venvCreate = true ∧ w.exitOf .pipUpgrade = true ∧
      w.exitOf .pipInstall = true)) :
    (main_rest b n w).1 = .error () ∧
    ∃ δ, (main_rest b n w).2.trace = w.trace ++ δ ∧ ∀ e ∈ δ, EnvStageEv e := by
  simp only [main_rest]
  obtain hext := cps_preExt b n (answerIsYes (input .includeWeb w).1) (input .includeWeb w).2
  obtain ⟨δs, hts, hcs⟩ := hext.trace
  obtain ⟨rv, wv, hv, _, _, _, _, _, _, ⟨δv, htv, hcv⟩, hiff⟩ :=
    venv_spec b (create_project_structure b n (answerIsYes (input .includeWeb w).1)
      (input .includeWeb w).2)
  have hWex : (create_project_structure b n (answerIsYes (input .includeWeb w).1)
      (input .includeWeb w).2).exitOf = w.exitOf := hext.exitOf
  rw [hWex] at hiff
  have hrv : rv = .error () := by
    cases rv with
    | error e => cases e; rfl
    | ok u =>
      exact absurd (hiff.mp (by cases u; rfl)) hfail
  subst hrv
  rw [hv]
  refine ⟨rfl, Event.prompt .includeWeb (w.stdin.headD "") :: (δs ++ δv), ?_, ?_⟩
  · show wv.trace = _
    rw [htv, hts]
    simp [input, List.append_assoc]
  · intro e he
    rcases List.mem_cons.1 he with rfl | he
    · exact Or.inr (Or.inl ⟨_, rfl⟩)
    rcases List.mem_append.1 he with he | he
    · exact Or.inr (Or.inr (Or.inl (hcs e he)))
    · exact Or.inr (Or.inr (Or.inr (hcv e he)))

theorem main_rest_git_fail (b n : String) (w : World)
    (henv : w.exitOf .venvCreate = true ∧ w.exitOf .pipUpgrade = true ∧
      w.exitOf .pipInstall = true)
    (hgit : ¬(w.exitOf .gitInit = true ∧ w.exitOf .gitAdd = true)) :
    (main_rest b n w).1 = .error () ∧
    ∃ δ, (main_rest b n w).2.trace = w.trace ++ δ ∧ ∀ e ∈ δ, GitStageEv e := by
  simp only [main_rest]
  obtain hext := cps_preExt b n (answerIsYes (input .includeWeb w).1) (input .includeWeb w).2
  obtain ⟨δs, hts, hcs⟩ := hext.trace
  obtain ⟨rv, wv, hv, _, _, hvex, _, _, _, ⟨δv, htv, hcv⟩, hiff⟩ :=
    venv_spec b (create_project_structure b n (answerIsYes (input .includeWeb w).1)
      (input .includeWeb w).2)
  have hWex : (create_project_structure b n (answerIsYes (input .includeWeb w).1)
      (input .includeWeb w).2).exitOf = w.exitOf := hext.exitOf
  rw [hWex] at hiff
  have hrv : rv = .ok () := hiff.mpr henv
  subst hrv
  rw [hv]
  dsimp only
  obtain ⟨rg, wg, hg, _, _, hgex, _, _, _, ⟨δg, htg, hcg, _⟩, hgiff⟩ := git_spec b wv
  rw [hvex, hWex] at hgiff
  have hrg : rg = .error () := by
    cases rg with
    | error e => cases e; rfl
    | ok u =>
      exact absurd (hgiff.mp (by cases u; rfl)) hgit
  subst hrg
  rw [hg]
  refine ⟨rfl, Event.prompt .includeWeb (w.stdin.headD "") :: (δs ++ δv ++ δg), ?_, ?_⟩
  · show wg.trace = _
    rw [htg, htv, hts]
    simp [input, List.append_assoc]
  · intro e he
    rcases List.mem_cons.1 he with rfl | he
    · exact Or.inl (Or.inr (Or.inl ⟨_, rfl⟩))
    rcases List.mem_append.1 he with he | he
    · rcases List.mem_append.1 he with he | he
      · exact Or.inl (Or.inr (Or.inr (Or.inl (hcs e he))))
      · exact Or.inl (Or.inr (Or.inr (Or.inr (hcv e he))))
    · exact Or.inr (hcg e he)

theorem main_rest_commit_ok (b n : String) (w : World)
    (hall : ∀ c, c ≠ Cmd.gitCommit → w.exitOf c = true) :
    (main_rest b n w).1 = .ok () ∧
    ∃ δ, (main_rest b n w).2.trace = w.trace ++ δ ∧
      (w.exitOf .gitCommit = false → Event.print .gitCommitFailed ∈ δ) ∧
      Event.print (.success n b) ∈ δ ∧
      ((∃ a, Event.prompt .installGh a ∈ δ) ∨ (∃ a, Event.prompt .push a ∈ δ)) := by
  simp only [main_rest]
  obtain hext := cps_preExt b n (answerIsYes (input .includeWeb w).1) (input .includeWeb w).2
  obtain ⟨δs, hts, hcs⟩ := hext.trace
  obtain ⟨rv, wv, hv, _, _, hvex, _, _, _, ⟨δv, htv, hcv⟩, hiff⟩ :=
    venv_spec b (create_project_structure b n (answerIsYes (input .includeWeb w).1)
      (input .includeWeb w).2)
  have hWex : (create_project_structure b n (answerIsYes (input .includeWeb w).1)
      (input .includeWeb w).2).exitOf = w.exitOf := hext.exitOf
  rw [hWex] at hiff
  have hrv : rv = .ok () := hiff.mpr
    ⟨hall _ (by decide), hall _ (by decide), hall _ (by decide)⟩
  subst hrv
  rw [hv]
  dsimp only
  obtain ⟨rg, wg, hg, _, _, hgex, _, _, _, ⟨δg, htg, hcg, hwarn⟩, hgiff⟩ := git_spec b wv
  rw [hvex, hWex] at hgiff
  have hrg : rg = .ok () := hgiff.mpr ⟨hall _ (by decide), hall _ (by decide)⟩
  subst hrg
  rw [hg]
  dsimp only
  obtain ⟨res, w', δgh, heq, _, htr, _, herr, hok, hhost⟩ := main_gh_spec b n wg
  rw [heq]
  have hwgex : wg.exitOf = w.exitOf := by rw [hgex, hvex, hWex]
  have hres : res = .ok () := by
    cases res with
    | ok u => cases u; rfl
    | error e =>
      cases e
      exfalso
      rcases (herr rfl).2 with ⟨v, hv2⟩ | hv2 | hv2 | hv2 <;> rw [hwgex] at hv2
      · exact absurd (hall (Cmd.ghRepoCreate n v) (by simp)) (by simp [hv2])
      · exact absurd (hall Cmd.brewInstallGh (by decide)) (by simp [hv2])
      · exact absurd (hall Cmd.aptInstallGh (by decide)) (by simp [hv2])
      · exact absurd (hall Cmd.dnfInstallGh (by decide)) (by simp [hv2])
  subst hres
  refine ⟨rfl,
    Event.prompt .includeWeb (w.stdin.headD "") :: (δs ++ δv ++ (δg ++ δgh)), ?_, ?_, ?_, ?_⟩
  · show w'.trace = _
    rw [htr, htg, htv, hts]
    simp [input, List.append_assoc]
  · intro hcf
    have hmem := hwarn.mpr ⟨by rw [hvex, hWex]; exact hall _ (by decide),
      by rw [hvex, hWex]; exact hall _ (by decide), by rw [hvex, hWex]; exact hcf⟩
    simp only [List.mem_cons, List.mem_append]
    exact Or.inr (Or.inr (Or.inl hmem))
  · have hmem := hok rfl
    simp only [List.mem_cons, List.mem_append]
    exact Or.inr (Or.inr (Or.inr hmem))
  · rcases hhost with ⟨a, ha⟩ | ⟨a, ha⟩
    · refine Or.inl ⟨a, ?_⟩
      simp only [List.mem_cons, List.mem_append]
      exact Or.inr (Or.inr (Or.inr ha))
    · refine Or.inr ⟨a, ?_⟩
      simp only [List.mem_cons, List.mem_append]
      exact Or.inr (Or.inr (Or.inr ha))

/-- C2: if any of the three environment-provisioning commands exits non-zero
in a run that reaches that stage, the error propagates uncaught (`main`
returns the error), and no version-control command, no hosting-stage prompt
and no final success line occur. -/
theorem C2_env_failure_fatal (path : String) (w : World)
    (hreach : w.fs.dirs.contains path = true ∨ answerIsYes (w.stdin.headD "") = true)
    (hfail : ¬(w.exitOf .venvCreate = true ∧ w.exitOf .pipUpgrade = true ∧
      w.exitOf .pipInstall = true)) :
    (main path w).1 = .error () ∧
    ∃ δ, (main path w).2.trace = w.trace ++ δ ∧ (∀ e ∈ δ, EnvStageEv e) ∧
      Event.print (.success (basename path) path) ∉ δ ∧
      (∀ cwd bb, Event.exec .gitInit cwd bb ∉ δ) ∧
      (∀ a, Event.prompt .push a ∉ δ) ∧ (∀ a, Event.prompt .installGh a ∉ δ) ∧
      (∀ a, Event.prompt .authLogin a ∉ δ) ∧ (∀ a, Event.prompt .visibility a ∉ δ) := by
  by_cases hdir : w.fs.dirs.contains path = true
  · rw [main_enter_exists hdir]
    obtain ⟨h1, δ, ht, hc⟩ := main_rest_env_fail path (basename path) w hfail
    refine ⟨h1, δ, ht, hc, ?_, ?_, ?_, ?_, ?_, ?_⟩
    · intro hmem
      exact (envStageEv_no_late (hc _ hmem)).1 _ _ rfl
    · intro cwd bb hmem
      exact (envStageEv_no_late (hc _ hmem)).2.1 _ _ rfl
    · intro a hmem
      exact (envStageEv_no_late (hc _ hmem)).2.2.1 _ rfl
    · intro a hmem
      exact (envStageEv_no_late (hc _ hmem)).2.2.2.1 _ rfl
    · intro a hmem
      exact (envStageEv_no_late (hc _ hmem)).2.2.2.2.1 _ rfl
    · intro a hmem
      exact (envStageEv_no_late (hc _ hmem)).2.2.2.2.2 _ rfl
  · have hy : answerIsYes (w.stdin.headD "") = true :=
      hreach.resolve_left (by simpa using hdir)
    rw [main_enter_create (by simpa using hdir) hy]
    obtain ⟨h1, δ, ht, hc⟩ := main_rest_env_fail path (basename path)
      { w with
          fs := w.fs.mkdirP path,
          stdin := w.stdin.tail,
          trace := w.trace ++ [.prompt (.createDir path) (w.stdin.headD "")] } hfail
    have hc' : ∀ e ∈ Event.prompt (.createDir path) (w.stdin.headD "") :: δ, EnvStageEv e := by
      intro e he
      rcases List.mem_cons.1 he with rfl | he
      · exact Or.inl ⟨_, _, rfl⟩
      · exact hc e he
    refine ⟨h1, Event.prompt (.createDir path) (w.stdin.headD "") :: δ, ?_, hc', ?_, ?_,
      ?_, ?_, ?_, ?_⟩
    · rw [ht]
      simp [List.append_assoc]
    · intro hmem
      exact (envStageEv_no_late (hc' _ hmem)).1 _ _ rfl
    · intro cwd bb hmem
      exact (envStageEv_no_late (hc' _ hmem)).2.1 _ _ rfl
    · intro a hmem
      exact (envStageEv_no_late (hc' _ hmem)).2.2.1 _ rfl
    · intro a hmem
      exact (envStageEv_no_late (hc' _ hmem)).2.2.2.1 _ rfl
    · intro a hmem
      exact (envStageEv_no_late (hc' _ hmem)).2.2.2.2.1 _ rfl
    · intro a hmem
      exact (envStageEv_no_late (hc' _ hmem)).2.2.2.2.2 _ rfl

/-- Witness for C2: a run on an existing target with a failing
virtual-environment step aborts with an error and without any later-stage
event. -/
theorem C2_env_failure_fatal_witness :
    (main "/p"
        { fs := ⟨[], ["/p"]⟩, stdin := ["n"], exitOf := fun c => !(c == Cmd.venvCreate),
          whichGh := [], auth := [], ghFound := false, system := "", whichBrew := false,
          whichApt := false, whichDnf := false, trace := [] }).1 = .error () ∧
    ∃ δ, (main "/p"
        { fs := ⟨[], ["/p"]⟩, stdin := ["n"], exitOf := fun c => !(c == Cmd.venvCreate),
          whichGh := [], auth := [], ghFound := false, system := "", whichBrew := false,
          whichApt := false, whichDnf := false, trace := [] }).2.trace = [] ++ δ ∧
      (∀ e ∈ δ, EnvStageEv e) ∧
      Event.print (.success (basename "/p") "/p") ∉ δ ∧
      (∀ cwd bb, Event.exec .gitInit cwd bb ∉ δ) ∧
      (∀ a, Event.prompt .push a ∉ δ) ∧ (∀ a, Event.prompt .installGh a ∉ δ) ∧
      (∀ a, Event.prompt .authLogin a ∉ δ) ∧ (∀ a, Event.prompt .visibility a ∉ δ) :=
  C2_env_failure_fatal "/p"
    { fs := ⟨[], ["/p"]⟩, stdin := ["n"], exitOf := fun c => !(c == Cmd.venvCreate),
      whichGh := [], auth := [], ghFound := false, system := "", whichBrew := false,
      whichApt := false, whichDnf := false, trace := [] }
    (Or.inl (by decide)) (by decide)

/-- C3: in the version-control stage, a failing `git init` or `git add .`
propagates as a fatal error (no hosting prompt, no success line), while a
failing `git commit` only prints a warning and the run continues through the
hosting stage to the final success line. -/
theorem C3_vcs_error_policy (path : String) (w : World)
    (hreach : w.fs.dirs.contains path = true ∨ answerIsYes (w.stdin.headD "") = true) :
    (w.exitOf .venvCreate = true → w.exitOf .pipUpgrade = true →
      w.exitOf .pipInstall = true →
      ¬(w.exitOf .gitInit = true ∧ w.exitOf .gitAdd = true) →
      (main path w).1 = .error () ∧
      ∃ δ, (main path w).2.trace = w.trace ++ δ ∧ (∀ e ∈ δ, GitStageEv e) ∧
        Event.print (.success (basename path) path) ∉ δ ∧
        (∀ a, Event.prompt .push a ∉ δ) ∧ (∀ a, Event.prompt .installGh a ∉ δ)) ∧
    ((∀ c, c ≠ Cmd.gitCommit → w.exitOf c = true) → w.exitOf .gitCommit = false →
      (main path w).1 = .ok () ∧
      ∃ δ, (main path w).2.trace = w.trace ++ δ ∧
        Event.print .gitCommitFailed ∈ δ ∧
        Event.print (.success (basename path) path) ∈ δ ∧
        ((∃ a, Event.prompt .installGh a ∈ δ) ∨ (∃ a, Event.prompt .push a ∈ δ))) := by
  constructor
  · intro h1 h2 h3 hgit
    by_cases hdir : w.fs.dirs.contains path = true
    · rw [main_enter_exists hdir]
      obtain ⟨ha, δ, ht, hc⟩ := main_rest_git_fail path (basename path) w ⟨h1, h2, h3⟩ hgit
      refine ⟨ha, δ, ht, hc, ?_, ?_, ?_⟩
      · intro hmem
        exact (gitStageEv_no_late (hc _ hmem)).1 _ _ rfl
      · intro a hmem
        exact (gitStageEv_no_late (hc _ hmem)).2.1 _ rfl
      · intro a hmem
        exact (gitStageEv_no_late (hc _ hmem)).2.2 _ rfl
    · have hy : answerIsYes (w.stdin.headD "") = true :=
        hreach.resolve_left (by simpa using hdir)
      rw [main_enter_create (by simpa using hdir) hy]
      obtain ⟨ha, δ, ht, hc⟩ := main_rest_git_fail path (basename path)
        { w with
            fs := w.fs.mkdirP path,
            stdin := w.stdin.tail,
            trace := w.trace ++ [.prompt (.createDir path) (w.stdin.headD "")] }
        ⟨h1, h2, h3⟩ hgit
      have hc' : ∀ e ∈ Event.prompt (.createDir path) (w.stdin.headD "") :: δ,
          GitStageEv e := by
        intro e he
        rcases List.mem_cons.1 he with rfl | he
        · exact Or.inl (Or.inl ⟨_, _, rfl⟩)
        · exact hc e he
      refine ⟨ha, Event.prompt (.createDir path) (w.stdin.headD "") :: δ, ?_, hc', ?_, ?_, ?_⟩
      · rw [ht]
        simp [List.append_assoc]
      · intro hmem
        exact (gitStageEv_no_late (hc' _ hmem)).1 _ _ rfl
      · intro a hmem
        exact (gitStageEv_no_late (hc' _ hmem)).2.1 _ rfl
      · intro a hmem
        exact (gitStageEv_no_late (hc' _ hmem)).2.2 _ rfl
  · intro hall hcommit
    by_cases hdir : w.fs.dirs.contains path = true
    · rw [main_enter_exists hdir]
      obtain ⟨ha, δ, ht, hw, hs, hh⟩ := main_rest_commit_ok path (basename path) w hall
      exact ⟨ha, δ, ht, hw hcommit, hs, hh⟩
    · have hy : answerIsYes (w.stdin.headD "") = true :=
        hreach.resolve_left (by simpa using hdir)
      rw [main_enter_create (by simpa using hdir) hy]
      obtain ⟨ha, δ, ht, hw, hs, hh⟩ := main_rest_commit_ok path (basename path)
        { w with
            fs := w.fs.mkdirP path,
            stdin := w.stdin.tail,
            trace := w.trace ++ [.prompt (.createDir path) (w.stdin.headD "")] } hall
      refine ⟨ha, Event.prompt (.createDir path) (w.stdin.headD "") :: δ, ?_,
        List.mem_cons_of_mem _ (hw hcommit), List.mem_cons_of_mem _ hs, ?_⟩
      · rw [ht]
        simp [List.append_assoc]
      · rcases hh with ⟨a, hmem⟩ | ⟨a, hmem⟩
        · exact Or.inl ⟨a, List.mem_cons_of_mem _ hmem⟩
        · exact Or.inr ⟨a, List.mem_cons_of_mem _ hmem⟩

/-- Witness for C3: a failing `git init` aborts the run; a failing commit
only warns and the run still prints the success line. -/
theorem C3_vcs_error_policy_witness :
    ((main "/p"
        { fs := ⟨[], ["/p"]⟩, stdin := ["n"], exitOf := fun c => !(c == Cmd.gitInit),
          whichGh := [], auth := [], ghFound := false, system := "", whichBrew := false,
          whichApt := false, whichDnf := false, trace := [] }).1 = .error ()) ∧
    ((main "/p"
        { fs := ⟨[], ["/p"]⟩, stdin := ["n"], exitOf := fun c => !(c == Cmd.gitCommit),
          whichGh := [], auth := [], ghFound := false, system := "", whichBrew := false,
          whichApt := false, whichDnf := false, trace := [] }).1 = .ok ()) ∧
    Event.print .gitCommitFailed ∈ (main "/p"
        { fs := ⟨[], ["/p"]⟩, stdin := ["n"], exitOf := fun c => !(c == Cmd.gitCommit),
          whichGh := [], auth := [], ghFound := false, system := "", whichBrew := false,
          whichApt := false, whichDnf := false, trace := [] }).2.trace ∧
    Event.print (.success (basename "/p") "/p") ∈ (main "/p"
        { fs := ⟨[], ["/p"]⟩, stdin := ["n"], exitOf := fun c => !(c == Cmd.gitCommit),
          whichGh := [], auth := [], ghFound := false, system := "", whichBrew := false,
          whichApt := false, whichDnf := false, trace := [] }).2.trace := by
  refine ⟨((C3_vcs_error_policy "/p"
      { fs := ⟨[], ["/p"]⟩, stdin := ["n"], exitOf := fun c => !(c == Cmd.gitInit),
        whichGh := [], auth := [], ghFound := false, system := "", whichBrew := false,
        whichApt := false, whichDnf := false, trace := [] } (Or.inl (by decide))).1
    (by decide) (by decide) (by decide) (by decide)).1, ?_, ?_, ?_⟩
  all_goals {
    obtain ⟨ha, δ, ht, hw, hs, _⟩ := (C3_vcs_error_policy "/p"
      { fs := ⟨[], ["/p"]⟩, stdin := ["n"], exitOf := fun c => !(c == Cmd.gitCommit),
        whichGh := [], auth := [], ghFound := false, system := "", whichBrew := false,
        whichApt := false, whichDnf := false, trace := [] } (Or.inl (by decide))).2
      (by intro c hc; simp [hc]) (by decide)
    first
      | exact ha
      | (rw [ht]; exact List.mem_append_right _ hw)
      | (rw [ht]; exact List.mem_append_right _ hs)
  }

theorem gitEv_not_prompt {e : Event} (h : GitEv e) (id : PromptId) (a : String) :
    e ≠ Event.prompt id a := by
  rcases h with ⟨cwd, bb, rfl | rfl | rfl⟩ | rfl <;> simp

theorem main_rest_split (b n : String) (w : World) :
    ∃ δ₁ δ₂, (main_rest b n w).2.trace = w.trace ++ δ₁ ++ δ₂ ∧
      (∀ a, Event.prompt .authLogin a ∉ δ₁) ∧
      (δ₂ = [] ∨ ∃ ans δ₃, δ₂ = Event.prompt .push ans :: δ₃ ∧ answerIsYes ans = true) := by
  simp only [main_rest]
  obtain hext := cps_preExt b n (answerIsYes (input .includeWeb w).1) (input .includeWeb w).2
  obtain ⟨δs, hts, hcs⟩ := hext.trace
  obtain ⟨rv, wv, hv, _, _, _, _, _, _, ⟨δv, htv, hcv⟩, _⟩ :=
    venv_spec b (create_project_structure b n (answerIsYes (input .includeWeb w).1)
      (input .includeWeb w).2)
  rw [hv]
  cases rv with
  | error e =>
    cases e
    refine ⟨Event.prompt .includeWeb (w.stdin.headD "") :: (δs ++ δv), [], ?_, ?_, Or.inl rfl⟩
    · show wv.trace = _
      rw [htv, hts]
      simp [input, List.append_assoc]
    · intro a hmem
      rcases List.mem_cons.1 hmem with heq | hmem
      · simp at heq
      rcases List.mem_append.1 hmem with hmem | hmem
      · exact (envStageEv_no_late (Or.inr (Or.inr (Or.inl (hcs _ hmem))))).2.2.2.2.1 a rfl
      · exact (envStageEv_no_late (Or.inr (Or.inr (Or.inr (hcv _ hmem))))).2.2.2.2.1 a rfl
  | ok u =>
    dsimp only
    obtain ⟨rg, wg, hg, _, _, _, _, _, _, ⟨δg, htg, hcg, _⟩, _⟩ := git_spec b wv
    rw [hg]
    cases rg with
    | error e =>
      cases e
      refine ⟨Event.prompt .includeWeb (w.stdin.headD "") :: (δs ++ δv ++ δg), [], ?_, ?_,
        Or.inl rfl⟩
      · show wg.trace = _
        rw [htg, htv, hts]
        simp [input, List.append_assoc]
      · intro a hmem
        rcases List.mem_cons.1 hmem with heq | hmem
        · simp at heq
        rcases List.mem_append.1 hmem with hmem | hmem
        · rcases List.mem_append.1 hmem with hmem | hmem
          · exact (envStageEv_no_late (Or.inr (Or.inr (Or.inl (hcs _ hmem))))).2.2.2.2.1 a rfl
          · exact (envStageEv_no_late (Or.inr (Or.inr (Or.inr (hcv _ hmem))))).2.2.2.2.1 a rfl
        · exact gitEv_not_prompt (hcg _ hmem) _ _ rfl
    | ok u2 =>
      dsimp only
      obtain ⟨res, w', δgh, heq, _, htr, ⟨δ₁g, δ₂g, hdd, hna, hd2⟩, _, _, _⟩ :=
        main_gh_spec b n wg
      rw [heq]
      refine ⟨Event.prompt .includeWeb (w.stdin.headD "") :: (δs ++ δv ++ δg ++ δ₁g), δ₂g,
        ?_, ?_, hd2⟩
      · show w'.trace = _
        rw [htr, hdd, htg, htv, hts]
        simp [input, List.append_assoc]
      · intro a hmem
        rcases List.mem_cons.1 hmem with heq2 | hmem
        · simp at heq2
        rcases List.mem_append.1 hmem with hmem | hmem
        · rcases List.mem_append.1 hmem with hmem | hmem
          · rcases List.mem_append.1 hmem with hmem | hmem
            · exact (envStageEv_no_late (Or.inr (Or.inr (Or.inl (hcs _ hmem))))).2.2.2.2.1 a rfl
            · exact (envStageEv_no_late (Or.inr (Or.inr (Or.inr (hcv _ hmem))))).2.2.2.2.1 a rfl
          · exact gitEv_not_prompt (hcg _ hmem) _ _ rfl
        · exact hna a hmem

/-- C4 counterexample: with the CLI present but the user unauthenticated,
the run asks `Push to GitHub?` (trace index 14) and only afterwards asks
`Run gh auth login now?` (trace index 16) — the spec's claimed order is
inverted, and an unauthenticated user is asked `Push to GitHub?`. -/
theorem C4_push_gate_counterexample :
    ((main "/p"
        { fs := ⟨[], ["/p"]⟩, stdin := ["n", "y", "n"], exitOf := fun _ => true,
          whichGh := [true], auth := [false], ghFound := true, system := "Linux",
          whichBrew := false, whichApt := false, whichDnf := false,
          trace := [] }).2.trace.get? 14 = some (Event.prompt .push "y")) ∧
    ((main "/p"
        { fs := ⟨[], ["/p"]⟩, stdin := ["n", "y", "n"], exitOf := fun _ => true,
          whichGh := [true], auth := [false], ghFound := true, system := "Linux",
          whichBrew := false, whichApt := false, whichDnf := false,
          trace := [] }).2.trace.get? 16 = some (Event.prompt .authLogin "n")) := by
  constructor <;> decide

/-- C4 (amended): in every run, the `Run gh auth login now?` prompt can only
occur after a `Push to GitHub?` prompt that was answered affirmatively — the
push prompt is issued before authentication is checked, not after it. -/
theorem C4_auth_prompt_after_push (path : String) (w : World) :
    ∃ δ₁ δ₂, (main path w).2.trace = w.trace ++ δ₁ ++ δ₂ ∧
      (∀ a, Event.prompt .authLogin a ∉ δ₁) ∧
      (δ₂ = [] ∨ ∃ ans δ₃, δ₂ = Event.prompt .push ans :: δ₃ ∧ answerIsYes ans = true) := by
  by_cases hdir : w.fs.dirs.contains path = true
  · rw [main_enter_exists hdir]
    exact main_rest_split path (basename path) w
  · by_cases hy : answerIsYes (w.stdin.headD "") = true
    · rw [main_enter_create (by simpa using hdir) hy]
      obtain ⟨δ₁, δ₂, ht, hna, hd2⟩ := main_rest_split path (basename path)
        { w with
            fs := w.fs.mkdirP path,
            stdin := w.stdin.tail,
            trace := w.trace ++ [.prompt (.createDir path) (w.stdin.headD "")] }
      refine ⟨Event.prompt (.createDir path) (w.stdin.headD "") :: δ₁, δ₂, ?_, ?_, hd2⟩
      · rw [ht]
        simp [List.append_assoc]
      · intro a hmem
        rcases List.mem_cons.1 hmem with heq | hmem
        · simp at heq
        · exact hna a hmem
    · rw [main_enter_abort (by simpa using hdir) (by simpa using hy)]
      exact ⟨[Event.prompt (.createDir path) (w.stdin.headD ""), Event.print .aborting],
        [], by simp, by simp, Or.inl rfl⟩

/-- C10 counterexample: a failing platform package-manager install command
(`sudo apt update && sudo apt install -y gh`) is a hosting-stage failure
other than the repository creation-and-push, yet it propagates uncaught:
the run errors, no success line and no `gh repo create` occur. -/
theorem C10_hosting_failures_counterexample :
    ((main "/p"
        { fs := ⟨[], ["/p"]⟩, stdin := ["n", "y"],
          exitOf := fun c => !(c == Cmd.aptInstallGh),
          whichGh := [false], auth := [], ghFound := false, system := "Linux",
          whichBrew := false, whichApt := true, whichDnf := false, trace := [] }).1 =
      .error ()) ∧
    (Event.exec .aptInstallGh none false ∈ (main "/p"
        { fs := ⟨[], ["/p"]⟩, stdin := ["n", "y"],
          exitOf := fun c => !(c == Cmd.aptInstallGh),
          whichGh := [false], auth := [], ghFound := false, system := "Linux",
          whichBrew := false, whichApt := true, whichDnf := false, trace := [] }).2.trace) ∧
    (((main "/p"
        { fs := ⟨[], ["/p"]⟩, stdin := ["n", "y"],
          exitOf := fun c => !(c == Cmd.aptInstallGh),
          whichGh := [false], auth := [], ghFound := false, system := "Linux",
          whichBrew := false, whichApt := true, whichDnf := false, trace := [] }).2.trace.all
      (fun e =>
        match e with
        | .exec (.ghRepoCreate _ _) _ _ => false
        | .print (.success _ _) => false
        | _ => true)) = true) := by
  refine ⟨?_, ?_, ?_⟩ <;> decide

theorem install_linux_apt_fail {w : World} (hsys : w.system = "Linux")
    (hapt : w.whichApt = true) (hx : w.exitOf .aptInstallGh = false) :
    install_github_cli w = (.error (),
      { w with trace := w.trace ++
          [.print .installingApt, .exec .aptInstallGh none false] }) := by
  simp [install_github_cli, hsys, hapt, printLn, run, hx, List.append_assoc]

theorem install_unsupported_os {w : World} (hD : w.system ≠ "Darwin")
    (hL : w.system ≠ "Linux") :
    install_github_cli w = (.ok false, printLn .unsupportedOS w) := by
  simp [install_github_cli, hD, hL]

/-- C10 (amended): a non-zero exit of the `gh repo create ... --push` command
propagates uncaught and the run aborts without the success line, and so does
a non-zero exit of a platform package-manager install command; the other
hosting-stage failures — CLI absent with install declined, CLI probe
failure, authentication declined, login failure, still-unauthenticated after
login, unsupported platform — are caught and merely skip the push, with the
run ending in the success line. -/
theorem C10_hosting_failure_policy (b n : String) (w : World) :
    (w.whichGh.headD false = true → w.ghFound = true → w.auth.headD false = true →
      answerIsYes (w.stdin.headD "") = true →
      w.exitOf (.ghRepoCreate n (chooseVisibility (w.stdin.tail.headD ""))) = false →
      (main_gh b n w).1 = .error () ∧
      ∃ δ, (main_gh b n w).2.trace = w.trace ++ δ ∧
        Event.print (.success n b) ∉ δ) ∧
    (w.whichGh.headD false = false → answerIsYes (w.stdin.headD "") = true →
      w.system = "Linux" → w.whichApt = true → w.exitOf .aptInstallGh = false →
      (main_gh b n w).1 = .error () ∧
      ∃ δ, (main_gh b n w).2.trace = w.trace ++ δ ∧
        Event.print (.success n b) ∉ δ) ∧
    (w.whichGh.headD false = false → answerIsYes (w.stdin.headD "") = false →
      (main_gh b n w).1 = .ok () ∧
      ∃ δ, (main_gh b n w).2.trace = w.trace ++ δ ∧
        Event.print (.success n b) ∈ δ) ∧
    (w.whichGh.headD false = true → w.ghFound = false →
      answerIsYes (w.stdin.headD "") = true →
      (main_gh b n w).1 = .ok () ∧
      ∃ δ, (main_gh b n w).2.trace = w.trace ++ δ ∧
        Event.print .ghNotInstalled ∈ δ ∧ Event.print (.success n b) ∈ δ) ∧
    (w.whichGh.headD false = true → w.ghFound = true → w.auth.headD false = false →
      answerIsYes (w.stdin.headD "") = true →
      answerIsYes (w.stdin.tail.headD "") = false →
      (main_gh b n w).1 = .ok () ∧
      ∃ δ, (main_gh b n w).2.trace = w.trace ++ δ ∧
        Event.print .skippingPush ∈ δ ∧ Event.print (.success n b) ∈ δ) ∧
    (w.whichGh.headD false = true → w.ghFound = true → w.auth.headD false = false →
      answerIsYes (w.stdin.headD "") = true →
      answerIsYes (w.stdin.tail.headD "") = true → w.exitOf .ghAuthLogin = false →
      (main_gh b n w).1 = .ok () ∧
      ∃ δ, (main_gh b n w).2.trace = w.trace ++ δ ∧
        Event.print .authFailed ∈ δ ∧ Event.print (.success n b) ∈ δ) ∧
    (w.whichGh.headD false = true → w.ghFound = true → w.auth.headD false = false →
      answerIsYes (w.stdin.headD "") = true →
      answerIsYes (w.stdin.tail.headD "") = true → w.exitOf .ghAuthLogin = true →
      w.auth.tail.headD false = false →
      (main_gh b n w).1 = .ok () ∧
      ∃ δ, (main_gh b n w).2.trace = w.trace ++ δ ∧
        Event.print .stillNotAuthenticated ∈ δ ∧ Event.print (.success n b) ∈ δ) ∧
    (w.whichGh.headD false = false → answerIsYes (w.stdin.headD "") = true →
      w.system ≠ "Darwin" → w.system ≠ "Linux" →
      (main_gh b n w).1 = .ok () ∧
      ∃ δ, (main_gh b n w).2.trace = w.trace ++ δ ∧
        Event.print .unsupportedOS ∈ δ ∧ Event.print (.success n b) ∈ δ) := by
  refine ⟨?_, ?_, ?_, ?_, ?_, ?_, ?_, ?_⟩
  · intro hwg hgh hau hpy hx
    rw [main_gh_ready hwg]
    simp only [push_phase_true_yes, hpy]
    simp only [push_auth_ok, hgh, hau]
    simp only [grc_spec, hx, Bool.false_eq_true, if_false]
    refine ⟨by trivial,
      ⟨[Event.prompt .push (w.stdin.headD ""),
        Event.prompt .visibility (w.stdin.tail.headD ""),
        Event.exec (.ghRepoCreate n (chooseVisibility (w.stdin.tail.headD ""))) (some b)
          false], ?_, by simp⟩⟩
    first
      | trivial
      | simp [printLn, List.append_assoc]
  · intro hwg hiy hsys hapt hx
    rw [main_gh_install_accepted hwg hiy]
    simp only [install_linux_apt_fail, hsys, hapt, hx]
    refine ⟨by trivial,
      ⟨[Event.prompt .installGh (w.stdin.headD ""), Event.print .installingApt,
        Event.exec .aptInstallGh none false], ?_, by simp⟩⟩
    first
      | trivial
      | simp [printLn, List.append_assoc]
  · intro hwg hn
    rw [main_gh_install_declined hwg hn, push_phase_false]
    refine ⟨by trivial,
      ⟨[Event.prompt .installGh (w.stdin.headD ""), Event.print (.success n b)], ?_,
        by simp⟩⟩
    first
      | trivial
      | simp [printLn, List.append_assoc]
  · intro hwg hghf hpy
    rw [main_gh_ready hwg]
    simp only [push_phase_true_yes, hpy]
    simp only [push_notfound, hghf]
    refine ⟨by trivial,
      ⟨[Event.prompt .push (w.stdin.headD ""), Event.print .ghNotInstalled,
        Event.print (.success n b)], ?_, by simp, by simp⟩⟩
    first
      | trivial
      | simp [printLn, List.append_assoc]
  · intro hwg hgh hau hpy hn2
    rw [main_gh_ready hwg]
    simp only [push_phase_true_yes, hpy]
    simp only [push_unauth_decline, hgh, hau, hn2]
    refine ⟨by trivial,
      ⟨[Event.prompt .push (w.stdin.headD ""), Event.print .ghNotAuthenticated,
        Event.prompt .authLogin (w.stdin.tail.headD ""), Event.print .skippingPush,
        Event.print (.success n b)], ?_, by simp, by simp⟩⟩
    first
      | trivial
      | simp [printLn, List.append_assoc]
  · intro hwg hgh hau hpy hy2 hxl
    rw [main_gh_ready hwg]
    simp only [push_phase_true_yes, hpy]
    simp only [push_login_fail, hgh, hau, hy2, hxl]
    refine ⟨by trivial,
      ⟨[Event.prompt .push (w.stdin.headD ""), Event.print .ghNotAuthenticated,
        Event.prompt .authLogin (w.stdin.tail.headD ""), Event.exec .ghAuthLogin none false,
        Event.print .authFailed, Event.print (.success n b)], ?_, by simp, by simp⟩⟩
    first
      | trivial
      | simp [printLn, List.append_assoc]
  · intro hwg hgh hau hpy hy2 hxl ha2
    rw [main_gh_ready hwg]
    simp only [push_phase_true_yes, hpy]
    simp only [push_still_unauth, hgh, hau, hy2, hxl, ha2]
    refine ⟨by trivial,
      ⟨[Event.prompt .push (w.stdin.headD ""), Event.print .ghNotAuthenticated,
        Event.prompt .authLogin (w.stdin.tail.headD ""), Event.exec .ghAuthLogin none true,
        Event.print .stillNotAuthenticated, Event.print (.success n b)], ?_, by simp,
        by simp⟩⟩
    first
      | trivial
      | simp [printLn, List.append_assoc]
  · intro hwg hiy hD hL
    rw [main_gh_install_accepted hwg hiy]
    rw [@install_unsupported_os
      { w with
          whichGh := w.whichGh.tail,
          stdin := w.stdin.tail,
          trace := w.trace ++ [.prompt .installGh (w.stdin.headD "")] } hD hL]
    simp only [push_phase_false]
    refine ⟨by trivial,
      ⟨[Event.prompt .installGh (w.stdin.headD ""), Event.print .unsupportedOS,
        Event.print (.success n b)], ?_, by simp, by simp⟩⟩
    first
      | trivial
      | simp [printLn, List.append_assoc]

/-- Witness for the amended C10 at concrete worlds: a failing repo-create
aborts without the success line; a declined authentication is caught and the
success line is still printed. -/
theorem C10_hosting_failure_policy_witness :
    ((main_gh "/p" "p"
        { fs := ⟨[], []⟩, stdin := ["y", ""],
          exitOf := fun c => !(c == Cmd.ghRepoCreate "p" "private"),
          whichGh := [true], auth := [true], ghFound := true, system := "Linux",
          whichBrew := false, whichApt := false, whichDnf := false, trace := [] }).1 =
      .error ()) ∧
    ((main_gh "/p" "p"
        { fs := ⟨[], []⟩, stdin := ["y", "n"], exitOf := fun _ => true,
          whichGh := [true], auth := [false], ghFound := true, system := "Linux",
          whichBrew := false, whichApt := false, whichDnf := false, trace := [] }).1 =
      .ok ()) ∧
    Event.print (.success "p" "/p") ∈ (main_gh "/p" "p"
        { fs := ⟨[], []⟩, stdin := ["y", "n"], exitOf := fun _ => true,
          whichGh := [true], auth := [false], ghFound := true, system := "Linux",
          whichBrew := false, whichApt := false, whichDnf := false, trace := [] }).2.trace := by
  refine ⟨((C10_hosting_failure_policy "/p" "p"
      { fs := ⟨[], []⟩, stdin := ["y", ""],
        exitOf := fun c => !(c == Cmd.ghRepoCreate "p" "private"),
        whichGh := [true], auth := [true], ghFound := true, system := "Linux",
        whichBrew := false, whichApt := false, whichDnf := false, trace := [] }).1
    (by decide) (by decide) (by decide) (by decide) (by decide)).1, ?_, ?_⟩
  all_goals {
    obtain ⟨hok, δ, ht, hskip, hs⟩ := (C10_hosting_failure_policy "/p" "p"
      { fs := ⟨[], []⟩, stdin := ["y", "n"], exitOf := fun _ => true,
        whichGh := [true], auth := [false], ghFound := true, system := "Linux",
        whichBrew := false, whichApt := false, whichDnf := false,
        trace := [] }).2.2.2.2.1 (by decide) (by decide) (by decide) (by decide) (by decide)
    first
      | exact hok
      | (rw [ht]; exact List.mem_append_right _ hs)
  }

end Newproj
